import Mathlib

/-!
Verification development for the Gold semantic elaborator
(GoldElaborator.cpp, GoldDeclaration.cpp).

The elaborator converts Gold syntax trees into clang declarations through a
staged three-pass pipeline (identify, type-elaborate, init-elaborate).  The
definitions below are a shallow embedding of that code:

* `Syn` models the external syntax-node tree (AtomSyntax, CallSyntax, other).
  Node identity (C++ pointer identity) is modelled by a numeric id carried on
  every node; the id doubles as the source location used in diagnostics.
* `Declarator` / `GDecl` / `Scope` model the Declarator, Declaration and Scope
  data structures.
* `ElabState` carries the scope stack, the Declaration arena, the foreign
  clang declaration arena (whose list order is foreign-object creation order),
  the diagnostic sink, the stderr stream, the declaration stack and an
  instrumentation trace of pass events.
* External collaborators that are not part of the elaborator core (the
  type/expression bridge, tag-name lookup, redefinition checking, statement
  elaboration) are oracle parameters collected in `Externals`.
* C++ assertion failures and null-pointer casts are modelled as `Except`
  errors of type `Abort`.
-/

/-- Syntax nodes, external and immutable.  `atom` is AtomSyntax with its token
spelling, `call` is CallSyntax (callee plus argument ListSyntax, whose own node
id is `argsNid`), `other` stands for the remaining syntax kinds that the
declaration identifier ignores.  `nid` is the node id standing in for C++
pointer identity and for the source location of the node. -/
inductive Syn where
  | atom (nid : Nat) (sp : String)
  | call (nid : Nat) (callee : Syn) (argsNid : Nat) (args : List Syn)
  | other (nid : Nat)
deriving Repr

/-- The node id (pointer identity / source location) of a syntax node. -/
def Syn.nid : Syn → Nat
  | .atom n _ => n
  | .call n _ _ _ => n
  | .other n => n

mutual
/-- A structural size bound on a syntax tree, used as recursion fuel for the
declarator builder (every recursive step of the builder moves to a node of
strictly smaller depth). -/
def Syn.depth : Syn → Nat
  | .atom _ _ => 1
  | .other _ => 1
  | .call _ callee _ args => callee.depth + Syn.depthList args + 1

/-- The summed depth of a list of syntax nodes. -/
def Syn.depthList : List Syn → Nat
  | [] => 0
  | s :: ss => Syn.depth s + Syn.depthList ss
end

/-- Declarator fragments (GoldScope.h / GoldElaborator.cpp).  Each fragment
holds its payload and the link to the next fragment of the chain:
`ident` is DK_Identifier with Data.Id, `type` is DK_Type with Data.Type and
the originating call, `func` is DK_Function with its CallSyntax (whose
argument list is the raw parameter-list syntax Data.ParamInfo.Params), `ptr`
is DK_Pointer. -/
inductive Declarator where
  | ident (a : Syn) (next : Option Declarator)
  | type (ty : Option Syn) (call : Option Syn) (next : Option Declarator)
  | func (call : Syn) (next : Option Declarator)
  | ptr (call : Syn) (next : Option Declarator)
deriving Repr

/-- Declarator kinds, for stating chain-shape facts. -/
inductive DKind where
  | identifier
  | typeK
  | functionK
  | pointer
deriving Repr, DecidableEq

/-- The kind tag of one fragment. -/
def Declarator.kind : Declarator → DKind
  | .ident _ _ => .identifier
  | .type _ _ _ => .typeK
  | .func _ _ => .functionK
  | .ptr _ _ => .pointer

/-- Declarator::isIdentifier. -/
def Declarator.isIdentifier (d : Declarator) : Bool :=
  d.kind = .identifier

/-- Declarator::isFunction. -/
def Declarator.isFunction (d : Declarator) : Bool :=
  d.kind = .functionK

/-- The next link of a fragment. -/
def Declarator.next : Declarator → Option Declarator
  | .ident _ n => n
  | .type _ _ n => n
  | .func _ n => n
  | .ptr _ n => n

/-- The list of fragment kinds of a declarator chain, outermost first. -/
def Declarator.kinds : Declarator → List DKind
  | .ident _ none => [.identifier]
  | .ident _ (some n) => .identifier :: n.kinds
  | .type _ _ none => [.typeK]
  | .type _ _ (some n) => .typeK :: n.kinds
  | .func _ none => [.functionK]
  | .func _ (some n) => .functionK :: n.kinds
  | .ptr _ none => [.pointer]
  | .ptr _ (some n) => .pointer :: n.kinds

/-- Declarator::getType, the stored Data.Type of a type fragment. -/
def Declarator.getTypeSyn : Declarator → Option Syn
  | .type t _ _ => t
  | _ => none

/-- Declarator::getId: the Data.Id of an identifier fragment, null otherwise. -/
def Declarator.getId : Declarator → Option Syn
  | .ident a _ => some a
  | _ => none

/-- Scope kinds (SK_Namespace etc.). -/
inductive ScopeKind where
  | namespaceK
  | classK
  | functionK
  | blockK
  | parameterK
deriving Repr, DecidableEq

/-- A lexical scope: kind tag, anchoring syntax node id, name bindings and
syntax-node bindings.  GoldScope.h is not part of the sources here, so the
two maps are modelled from the spec (name to Declaration mapping keyed both
by identifier and by the declaration syntax node, newest binding first). -/
structure Scope where
  kind : ScopeKind
  anchor : Nat
  idMap : List (String × Nat)
  nodeMap : List (Nat × Nat)
deriving Repr

/-- Scope::findDecl(IdentifierInfo) restricted to this one scope:
the binding of a name in this scope, if any. -/
def Scope.findId (sc : Scope) (s : String) : Option Nat :=
  (sc.idMap.find? (fun p => p.1 = s)).map (·.2)

/-- Scope::findDecl(Syntax): the Declaration bound to a syntax node. -/
def Scope.findNode (sc : Scope) (n : Nat) : Option Nat :=
  (sc.nodeMap.find? (fun p => p.1 = n)).map (·.2)

/-- A semantic Declaration record (GoldDeclaration.h): parent declaration,
the declaration syntax node `op`, the declarator chain (absent only for the
file root declaration), the initializer syntax, the identifier, the foreign
clang-object handle `cxx` (arena index, absent until materialized), the
redeclaration ring links `first` and `next` (declaration arena indices), and
the parameter scope saved on function declarations during type elaboration. -/
structure GDecl where
  parent : Option Nat
  op : Syn
  decl : Option Declarator
  init : Option Syn
  id : Option String
  cxx : Option Nat
  first : Nat
  next : Nat
  paramScope : Option Scope
deriving Repr

instance : Inhabited GDecl :=
  ⟨{ parent := none, op := .other 0, decl := none, init := none, id := none,
     cxx := none, first := 0, next := 0, paramScope := none }⟩

/-- The first fragment of the chain that is not an identifier fragment. -/
def Declarator.firstNonId : Declarator → Option Declarator
  | .ident _ none => none
  | .ident _ (some n) => n.firstNonId
  | d => some d

/-- Declaration::declaresFunction: the first non-identifier fragment of the
chain declares parameters (GoldDeclaration.cpp). -/
def GDecl.declaresFunction (d : GDecl) : Bool :=
  match d.decl with
  | none => false
  | some dcl =>
    match dcl.firstNonId with
    | some f => f.isFunction
    | none => false

/-- Storage classes of materialized variables (clang::StorageClass). -/
inductive StorageClass where
  | scAuto
  | scStatic
  | scExtern
  | scNone
deriving Repr, DecidableEq

/-- Host compiler types.  `undeduced` is the undetermined placeholder
(clang undeduced auto). -/
inductive CxxTy where
  | named (s : String)
  | undeduced
deriving Repr, DecidableEq

/-- Foreign (clang) declaration objects.  The arena order of these objects is
the foreign-object creation order. -/
inductive CxxDecl where
  | tu
  | var (name : Option String) (ty : CxxTy) (sc : StorageClass) (init : Option Nat)
  | func (name : Option String) (ty : CxxTy) (params : List (String × CxxTy))
      (body : Option Nat)
  | parm (name : Option String) (ty : CxxTy)
deriving Repr

/-- Diagnostics reported through the diagnostic sink. -/
inductive DiagKind where
  | errFailedToTranslateType
deriving Repr, DecidableEq

/-- Instrumentation events: one event per per-node pass entry, plus one event
per foreign-object creation (tagged with the owning declaration node id). -/
inductive Ev where
  | identifyEv (nid : Nat)
  | typeEv (nid : Nat)
  | initEv (nid : Nat)
  | createObj (nid : Nat)
deriving Repr, DecidableEq

/-- C++ assertion failures and null casts, modelled as aborts. -/
inductive Abort where
  | funcDefInParamScope
  | invalidParamDecl
  | ice
deriving Repr, DecidableEq

/-- The elaborator state: scope stack (innermost first), Declaration arena,
foreign-object arena, diagnostic sink, stderr stream, declaration stack, and
the instrumentation trace. -/
structure ElabState where
  scopes : List Scope
  decls : List GDecl
  cxxArena : List CxxDecl
  diags : List (Nat × DiagKind)
  errs : List String
  declStack : List Nat
  trace : List Ev
deriving Repr

/-- The state with the instrumentation trace erased; two states that agree on
this projection are indistinguishable to the program itself. -/
def ElabState.sansTrace (st : ElabState) : ElabState :=
  { st with trace := [] }

/-- The current (innermost) scope, if the stack is nonempty. -/
def ElabState.curScope (st : ElabState) : Option Scope :=
  st.scopes.head?

/-- Scope::isParameterScope on the current scope. -/
def ElabState.isParameterScope (st : ElabState) : Bool :=
  match st.curScope with
  | some sc => sc.kind = .parameterK
  | none => false

/-- Scope::isBlockScope on the current scope. -/
def ElabState.isBlockScope (st : ElabState) : Bool :=
  match st.curScope with
  | some sc => sc.kind = .blockK
  | none => false

/-- Scope::isNamespaceScope on the current scope. -/
def ElabState.isNamespaceScope (st : ElabState) : Bool :=
  match st.curScope with
  | some sc => sc.kind = .namespaceK
  | none => false

/-- findDecl(Id) on the current scope, with a possibly null identifier. -/
def ElabState.findIdCur (st : ElabState) (s? : Option String) : Option Nat :=
  match st.curScope, s? with
  | some sc, some s => sc.findId s
  | _, _ => none

/-- findDecl(Syntax) on the current scope. -/
def ElabState.findNodeCur (st : ElabState) (n : Nat) : Option Nat :=
  match st.curScope with
  | some sc => sc.findNode n
  | none => none

/-- Scope::addDecl: bind the new declaration in the current scope, keyed by
its syntax node and (when present) by its identifier. -/
def ElabState.addDeclCur (st : ElabState) (nid : Nat) (id? : Option String)
    (did : Nat) : ElabState :=
  match st.scopes with
  | [] => st
  | sc :: rest =>
    let sc := { sc with
      nodeMap := (nid, did) :: sc.nodeMap,
      idMap := match id? with
        | some s => (s, did) :: sc.idMap
        | none => sc.idMap }
    { st with scopes := sc :: rest }

/-- Append one diagnostic to the sink (SemaRef.Diags.Report). -/
def ElabState.report (st : ElabState) (loc : Nat) (k : DiagKind) : ElabState :=
  { st with diags := st.diags ++ [(loc, k)] }

/-- Append one instrumentation event. -/
def ElabState.pushEv (st : ElabState) (e : Ev) : ElabState :=
  { st with trace := st.trace ++ [e] }

/-- Results of ExprElaborator::elaborateExpr: a clang expression or a
TypeSourceInfo. -/
inductive ExprRes where
  | expr (e : Nat)
  | tyInfo (t : CxxTy)
deriving Repr, DecidableEq

/-- External collaborators of the elaborator core, modelled as oracles.

Modelled from the spec: GoldSema.cpp, GoldExprElaborator.cpp and
GoldStmtElaborator.cpp are not among the sources, so the host type system
service and the type/expression bridge (spec sections 2, 4.4 and 6) enter the
model as pure functions of the data the code hands them:
`lookupTag` is Sema::lookupUnqualifiedName with LookupTagName (the tag-name
lookup against the scopes built so far), `elabTypeExpr` is
ExprElaborator::elaborateTypeExpr (returning none when the type cannot be
translated), `funcParams` and `paramScope` are the parameter materialization
the bridge performs for function declarators, `elabExpr` is
ExprElaborator::elaborateExpr, `deduceAuto` is clang Sema::DeduceAutoType
(none is DAR_Failed), `checkRedef` is Sema::checkForRedefinition, and
`elabBlock` is StmtElaborator::elaborateBlock. -/
structure Externals where
  lookupTag : List Scope → String → Bool
  elabTypeExpr : List Scope → Option Declarator → Option CxxTy
  funcParams : List Scope → Option Declarator → List (String × CxxTy)
  paramScope : List Scope → Option Declarator → Scope
  elabExpr : Syn → ExprRes
  deduceAuto : CxxTy → Nat → Option CxxTy
  checkRedef : ElabState → Nat → Bool
  elabBlock : Syn → Nat

/-- buildIdDeclarator. -/
def buildIdDeclarator (a : Syn) (next : Option Declarator) : Declarator :=
  .ident a next

/-- buildTypeDeclarator: for a CallSyntax the stored type is the type of the
next fragment when a next fragment was supplied, otherwise the second call
argument; for an AtomSyntax the stored type is the atom itself. -/
def buildTypeDeclarator (s : Syn) (next : Option Declarator) : Declarator :=
  match s with
  | .call _ _ _ args =>
    .type (match next with
           | some n => n.getTypeSyn
           | none => args.get? 1) (some s) next
  | _ => .type (some s) none next

/-- buildFunctionDeclarator: the fragment carries the whole call, whose
argument list is the raw parameter-list syntax. -/
def buildFunctionDeclarator (s : Syn) (next : Option Declarator) : Declarator :=
  .func s next

/-- buildPointerDeclarator. -/
def buildPointerDeclarator (s : Syn) (next : Option Declarator) : Declarator :=
  .ptr s next

/-- The pointer-of branch of makeDeclarator: recurse into the operand to
build the pointee chain (via the callback `rec`), then prepend a Pointer
fragment; a missing operand is an out-of-bounds argument access. -/
def makeDeclPtr (rec : Syn → Option Declarator → Except Abort (Option Declarator))
    (S : Syn) (args : List Syn) (next : Option Declarator) :
    Except Abort (Option Declarator) :=
  match args with
  | a0 :: _ => do
    let n ← rec a0 next
    .ok (some (buildPointerDeclarator S n))
  | [] => .error .ice

/-- The declare-with-type branch of makeDeclarator, after the two operands
are in hand: a compound (call) right operand is elaborated recursively first
and the left operand is elaborated with that chain as Next; otherwise the
right operand is wrapped directly as a Type fragment built from the whole
call. -/
def makeDeclColonRhs
    (rec : Syn → Option Declarator → Except Abort (Option Declarator))
    (S a0 a1 : Syn) (next : Option Declarator) :
    Except Abort (Option Declarator) :=
  match a1 with
  | .call m c an as => do
    let n ← rec (.call m c an as) next
    rec a0 n
  | .atom _ _ => rec a0 (some (buildTypeDeclarator S next))
  | .other _ => rec a0 (some (buildTypeDeclarator S next))

/-- The declare-with-type branch of makeDeclarator: fetch the two operands
(out-of-bounds access aborts) and dispatch on the right operand's shape. -/
def makeDeclColon
    (rec : Syn → Option Declarator → Except Abort (Option Declarator))
    (S : Syn) (args : List Syn) (next : Option Declarator) :
    Except Abort (Option Declarator) :=
  match args with
  | a0 :: a1 :: _ => makeDeclColonRhs rec S a0 a1 next
  | [_] => .error .ice
  | [] => .error .ice

/-- The call case of makeDeclarator, dispatching on the callee spelling:
declare-with-type, pointer-of, or (for any other invocation) a function
declarator that recurses into the callee with a prepended Function fragment
carrying the call. -/
def makeDeclOp
    (rec : Syn → Option Declarator → Except Abort (Option Declarator))
    (S : Syn) (cnid : Nat) (csp : String) (args : List Syn)
    (next : Option Declarator) : Except Abort (Option Declarator) :=
  if csp = "operator\x27:\x27" then
    makeDeclColon rec S args next
  else if csp = "operator\x27^\x27" then
    makeDeclPtr rec S args next
  else
    rec (.atom cnid csp) (some (buildFunctionDeclarator S next))

/-- makeDeclarator with explicit recursion fuel: atoms are disambiguated by
the tag-name lookup against the scopes built so far; calls dispatch through
`makeDeclOp`; a node that is neither atom nor call yields no declarator; a
call whose callee is not an atom hits the cast assertion.  The fuel only
bounds the recursion depth; `makeDeclarator` below supplies a sufficient
amount, and `makeDeclaratorF_mono` shows any sufficient amount is
equivalent. -/
def makeDeclaratorF (ext : Externals) (scopes : List Scope) :
    Nat → Syn → Option Declarator → Except Abort (Option Declarator)
  | 0, _, _ => .error .ice
  | fuel + 1, S, next =>
    match S with
    | .atom nid sp =>
      if ext.lookupTag scopes sp then
        .ok (some (buildTypeDeclarator (.atom nid sp) next))
      else
        .ok (some (buildIdDeclarator (.atom nid sp) next))
    | .call nid (.atom cnid csp) argsNid args =>
      makeDeclOp (makeDeclaratorF ext scopes fuel)
        (.call nid (.atom cnid csp) argsNid args) cnid csp args next
    | .call _ (.call _ _ _ _) _ _ => .error .ice
    | .call _ (.other _) _ _ => .error .ice
    | .other _ => .ok none

/-- makeDeclarator: recursive decomposition of one declaration-syntax subtree
into a declarator chain (GoldElaborator.cpp), run with enough fuel for the
whole subtree. -/
def makeDeclarator (ext : Externals) (scopes : List Scope)
    (S : Syn) (next : Option Declarator) : Except Abort (Option Declarator) :=
  makeDeclaratorF ext scopes S.depth S next

@[simp] theorem depth_atom (nid : Nat) (sp : String) :
    (Syn.atom nid sp).depth = 1 := rfl

@[simp] theorem depth_other (nid : Nat) : (Syn.other nid).depth = 1 := rfl

@[simp] theorem depth_call (nid : Nat) (callee : Syn) (argsNid : Nat)
    (args : List Syn) :
    (Syn.call nid callee argsNid args).depth =
      callee.depth + Syn.depthList args + 1 := rfl

@[simp] theorem depthList_nil : Syn.depthList [] = 0 := rfl

@[simp] theorem depthList_cons (s : Syn) (ss : List Syn) :
    Syn.depthList (s :: ss) = s.depth + Syn.depthList ss := rfl

/-- Every syntax node has positive depth. -/
theorem depth_pos (S : Syn) : 1 ≤ S.depth := by
  cases S <;> simp

@[simp] theorem makeDeclaratorF_atom (ext : Externals) (scopes : List Scope)
    (fuel nid : Nat) (sp : String) (next : Option Declarator) :
    makeDeclaratorF ext scopes (fuel + 1) (.atom nid sp) next =
      if ext.lookupTag scopes sp then
        .ok (some (buildTypeDeclarator (.atom nid sp) next))
      else
        .ok (some (buildIdDeclarator (.atom nid sp) next)) := rfl

@[simp] theorem makeDeclaratorF_call_atom (ext : Externals)
    (scopes : List Scope) (fuel nid cnid argsNid : Nat) (csp : String)
    (args : List Syn) (next : Option Declarator) :
    makeDeclaratorF ext scopes (fuel + 1)
        (.call nid (.atom cnid csp) argsNid args) next =
      makeDeclOp (makeDeclaratorF ext scopes fuel)
        (.call nid (.atom cnid csp) argsNid args) cnid csp args next := rfl

@[simp] theorem makeDeclaratorF_other (ext : Externals) (scopes : List Scope)
    (fuel nid : Nat) (next : Option Declarator) :
    makeDeclaratorF ext scopes (fuel + 1) (.other nid) next = .ok none := rfl

/-- Fuel irrelevance: any two sufficient fuel amounts give the same result. -/
theorem makeDeclaratorF_mono (ext : Externals) (scopes : List Scope) :
    ∀ (f1 : Nat) (S : Syn) (f2 : Nat), S.depth ≤ f1 → S.depth ≤ f2 →
    ∀ next, makeDeclaratorF ext scopes f1 S next =
      makeDeclaratorF ext scopes f2 S next := by
  intro f1
  induction f1 with
  | zero =>
    intro S f2 h1 _ _
    exact absurd h1 (by have := depth_pos S; omega)
  | succ f ih =>
    intro S f2 h1 h2 next
    cases f2 with
    | zero => exact absurd h2 (by have := depth_pos S; omega)
    | succ g =>
      cases S with
      | atom nid sp => rfl
      | other nid => rfl
      | call nid callee argsNid args =>
        cases callee with
        | call m c an as => rfl
        | other m => rfl
        | atom cnid csp =>
          simp only [depth_call, depth_atom] at h1 h2
          show makeDeclOp (makeDeclaratorF ext scopes f) _ cnid csp args next =
            makeDeclOp (makeDeclaratorF ext scopes g) _ cnid csp args next
          unfold makeDeclOp
          by_cases hc : csp = "operator\x27:\x27"
      -- declare-with-type branch
          · simp only [hc, if_true]
            cases args with
            | nil => rfl
            | cons a0 args2 =>
              cases args2 with
              | nil => rfl
              | cons a1 rest =>
                simp only [depthList_cons] at h1 h2
                have ha0 : a0.depth ≤ f := by omega
                have ha0g : a0.depth ≤ g := by omega
                have ha1 : a1.depth ≤ f := by omega
                have ha1g : a1.depth ≤ g := by omega
                cases a1 with
                | call m c an as =>
                  simp only [makeDeclColon, makeDeclColonRhs]
                  rw [ih (.call m c an as) g ha1 ha1g next]
                  cases makeDeclaratorF ext scopes g (.call m c an as) next with
                  | error a => rfl
                  | ok n =>
                    simp only [bind, Except.bind]
                    exact ih a0 g ha0 ha0g n
                | atom m sp2 =>
                  simp only [makeDeclColon, makeDeclColonRhs]
                  exact ih a0 g ha0 ha0g _
                | other m =>
                  simp only [makeDeclColon, makeDeclColonRhs]
                  exact ih a0 g ha0 ha0g _
          · by_cases hp : csp = "operator\x27^\x27"
        -- pointer-of branch
            · simp only [hc, hp, if_true, if_false]
              cases args with
              | nil => rfl
              | cons a0 rest =>
                simp only [depthList_cons] at h1 h2
                have ha0 : a0.depth ≤ f := by omega
                have ha0g : a0.depth ≤ g := by omega
                simp only [makeDeclPtr]
                rw [ih a0 g ha0 ha0g next]
                cases makeDeclaratorF ext scopes g a0 next with
                | error a => rfl
                | ok n => rfl
        -- function-declarator branch
            · simp only [hc, hp, if_false]
              exact ih (.atom cnid csp) g (by simp; omega) (by simp; omega) _

/-- Unfolding makeDeclarator at an atom. -/
theorem makeDeclarator_atom (ext : Externals) (scopes : List Scope)
    (nid : Nat) (sp : String) (next : Option Declarator) :
    makeDeclarator ext scopes (.atom nid sp) next =
      if ext.lookupTag scopes sp then
        .ok (some (buildTypeDeclarator (.atom nid sp) next))
      else
        .ok (some (buildIdDeclarator (.atom nid sp) next)) := rfl

/-- Unfolding makeDeclarator at a call with an atom callee. -/
theorem makeDeclarator_call_atom (ext : Externals) (scopes : List Scope)
    (nid cnid argsNid : Nat) (csp : String) (args : List Syn)
    (next : Option Declarator) :
    makeDeclarator ext scopes (.call nid (.atom cnid csp) argsNid args) next =
      makeDeclOp (makeDeclaratorF ext scopes (1 + Syn.depthList args))
        (.call nid (.atom cnid csp) argsNid args) cnid csp args next := rfl

/-- Recursive calls of the declarator builder on argument subterms may be
re-expressed through the fuel-supplying wrapper. -/
theorem makeDeclaratorF_args_eq (ext : Externals) (scopes : List Scope)
    (args : List Syn) (a : Syn) (h : a.depth ≤ Syn.depthList args)
    (next : Option Declarator) :
    makeDeclaratorF ext scopes (1 + Syn.depthList args) a next =
      makeDeclarator ext scopes a next :=
  makeDeclaratorF_mono ext scopes (1 + Syn.depthList args) a a.depth
    (by omega) (le_refl _) next

/-- getIdentifier: the spelling of the declarator head when it is an
identifier fragment over an atom. -/
def getIdentifier (d : Declarator) : Option String :=
  match d.getId with
  | some (.atom _ sp) => some sp
  | _ => none

/-- Unpacking the argument pair of an assignment-style or definition-only
form: the declarator operand and the initializer operand; an out-of-bounds
argument access aborts. -/
def identifyUnpackPair (args : List Syn) (opEq : Bool) :
    Except Abort (Option (Syn × Option Syn × Bool)) :=
  match args with
  | d :: i :: _ => .ok (some (d, some i, opEq))
  | [_] => .error .ice
  | [] => .error .ice

/-- Recognizing the declaration-producing forms by callee spelling:
assignment-style, definition-only (invalid in parameter scope: assertion),
bare declaration, or (none of these) not a declaration. -/
def identifyUnpack (st : ElabState) (S : Syn) (csp : String)
    (args : List Syn) : Except Abort (Option (Syn × Option Syn × Bool)) :=
  if csp = "operator\x27=\x27" then identifyUnpackPair args true
  else if csp = "operator\x27!\x27" then
    if st.isParameterScope then .error .funcDefInParamScope
    else identifyUnpackPair args false
  else if csp = "operator\x27:\x27" then .ok (some (S, none, false))
  else .ok none

/-- The tail of identifyDecl: create the Declaration, link it behind an
existing same-name Declaration when the current scope is a namespace or
parameter scope, and bind it in the current scope. -/
def identifyFinish (S : Syn) (initSyn : Option Syn) (dcl : Declarator)
    (id? : Option String) (st : ElabState) : ElabState :=
  let newId := st.decls.length
  let theDecl : GDecl :=
    { parent := st.declStack.head?, op := S, decl := some dcl,
      init := initSyn, id := id?, cxx := none,
      first := newId, next := newId, paramScope := none }
  let stepped :=
    if st.isNamespaceScope || st.isParameterScope then
      match st.findIdCur id? with
      | some oldId =>
        let old := st.decls.getD oldId default
        ({ st with
            decls := st.decls.set oldId { old with next := newId } },
         { theDecl with first := old.first, next := old.first })
      | none => (st, theDecl)
    else (st, theDecl)
  ({ stepped.1 with
      decls := stepped.1.decls ++ [stepped.2] }).addDeclCur S.nid id? newId

/-- The middle of identifyDecl, once a declarator chain is in hand: enforce
the parameter-scope declarator restriction (assertion), apply the block-scope
re-assignment suppression, then finish. -/
def identifyWithDecl (S : Syn) (initSyn : Option Syn) (opEq : Bool)
    (dcl : Declarator) (st : ElabState) : Except Abort ElabState :=
  if st.isParameterScope && !dcl.isIdentifier then .error .invalidParamDecl
  else
    let id? := getIdentifier dcl
    if st.isBlockScope && (st.findIdCur id?).isSome && opEq then .ok st
    else .ok (identifyFinish S initSyn dcl id? st)

/-- A recognized declaration form: build the declarator (failure skips this
node only) and continue. -/
def identifyForm (ext : Externals) (S declSyn : Syn) (initSyn : Option Syn)
    (opEq : Bool) (st : ElabState) : Except Abort ElabState :=
  match makeDeclarator ext st.scopes declSyn none with
  | .error a => .error a
  | .ok none => .ok st
  | .ok (some dcl) => identifyWithDecl S initSyn opEq dcl st

/-- identifyDecl (GoldElaborator.cpp): recognize one of the three
declaration-producing forms, build its declarator, apply the parameter-scope
restrictions, the block-scope re-assignment suppression and the
namespace/parameter redeclaration chaining, and bind the new Declaration in
the current scope.  Any other syntax shape is silently skipped. -/
def identifyDecl (ext : Externals) (S : Syn) (st0 : ElabState) :
    Except Abort ElabState :=
  let st := st0.pushEv (.identifyEv S.nid)
  match S with
  | .call nid (.atom cnid csp) argsNid args =>
    match identifyUnpack st (.call nid (.atom cnid csp) argsNid args) csp args with
    | .error a => .error a
    | .ok none => .ok st
    | .ok (some (declSyn, initSyn, opEq)) =>
      identifyForm ext (.call nid (.atom cnid csp) argsNid args)
        declSyn initSyn opEq st
  | .call _ (.call _ _ _ _) _ _ => .ok st
  | .call _ (.other _) _ _ => .ok st
  | .atom _ _ => .ok st
  | .other _ => .ok st

/-- getFunctionDeclarator: the function fragment is the second fragment of
the chain, right behind the identifier head; any other shape is an assertion
failure in the code. -/
def getFunctionDeclaratorOf (d? : Option Declarator) : Option Declarator :=
  match d? with
  | some (.ident _ (some n)) => if n.isFunction then some n else none
  | _ => none

/-- getStorageClass: block scope gives local storage, anything else static. -/
def getStorageClass (st : ElabState) : StorageClass :=
  if st.isBlockScope then .scAuto else .scStatic

/-- elaborateParameterDecl: translate the declared type and materialize a
ParmVarDecl; the parameter is added to its function later. -/
def elaborateParameterDecl (ext : Externals) (did : Nat) (st : ElabState) :
    Except Abort (ElabState × Option Nat) :=
  let D := st.decls.getD did default
  match ext.elabTypeExpr st.scopes D.decl with
  | none => .ok (st.report D.op.nid .errFailedToTranslateType, none)
  | some ty =>
    let idx := st.cxxArena.length
    .ok ({ st with
            cxxArena := st.cxxArena ++ [.parm D.id ty],
            decls := st.decls.set did { D with cxx := some idx },
            trace := st.trace ++ [.createObj D.op.nid] }, some idx)

/-- elaborateVariableDecl: parameter scope delegates to the parameter path;
otherwise translate the declared type (reporting a failure once and leaving
the foreign handle unset), then materialize a VarDecl with the storage class
derived from the enclosing scope. -/
def elaborateVariableDecl (ext : Externals) (did : Nat) (st : ElabState) :
    Except Abort (ElabState × Option Nat) :=
  if st.isParameterScope then elaborateParameterDecl ext did st
  else
    let D := st.decls.getD did default
    match ext.elabTypeExpr st.scopes D.decl with
    | none => .ok (st.report D.op.nid .errFailedToTranslateType, none)
    | some ty =>
      let sc := getStorageClass st
      let idx := st.cxxArena.length
      .ok ({ st with
              cxxArena := st.cxxArena ++ [.var D.id ty sc none],
              decls := st.decls.set did { D with cxx := some idx },
              trace := st.trace ++ [.createObj D.op.nid] }, some idx)

/-- elaborateFunctionDecl: translate the type (reporting a failure once),
then materialize the FunctionDecl with its parameters, saving the parameter
scope the bridge constructed on the declaration. -/
def elaborateFunctionDecl (ext : Externals) (did : Nat) (st : ElabState) :
    Except Abort (ElabState × Option Nat) :=
  let D := st.decls.getD did default
  match ext.elabTypeExpr st.scopes D.decl with
  | none => .ok (st.report D.op.nid .errFailedToTranslateType, none)
  | some ty =>
    match getFunctionDeclaratorOf D.decl with
    | none => .error .ice
    | some _ =>
      let ps := ext.funcParams st.scopes D.decl
      let idx := st.cxxArena.length
      .ok ({ st with
              cxxArena := st.cxxArena ++ [.func D.id ty ps none],
              decls := st.decls.set did
                { D with cxx := some idx,
                         paramScope := some (ext.paramScope st.scopes D.decl) },
              trace := st.trace ++ [.createObj D.op.nid] }, some idx)

/-- elaborateDecl: dispatch on whether the declaration declares a function. -/
def elaborateDecl (ext : Externals) (did : Nat) (st : ElabState) :
    Except Abort (ElabState × Option Nat) :=
  if (st.decls.getD did default).declaresFunction then
    elaborateFunctionDecl ext did st
  else
    elaborateVariableDecl ext did st

/-- elaborateDeclType: the per-node entry of the type-elaboration pass; a
node that the identification pass bound no Declaration to is skipped. -/
def elaborateDeclType (ext : Externals) (S : Syn) (st0 : ElabState) :
    Except Abort (ElabState × Option Nat) :=
  let st := st0.pushEv (.typeEv S.nid)
  match st.findNodeCur S.nid with
  | none => .ok (st, none)
  | some did => elaborateDecl ext did st

/-- elaborateVariableInit: skip declarations whose foreign handle is absent;
a variable without initializer is left untouched (the code notes in a FIXME
that an undeduced type ought to be an error here but reports nothing); with
an initializer, reject redefinitions, reject type results, deduce an
undeduced type from the initializer (printing to stderr on failure), and
attach the initializer to the VarDecl. -/
def elaborateVariableInit (ext : Externals) (did : Nat) (st : ElabState) :
    Except Abort ElabState :=
  let D := st.decls.getD did default
  match D.cxx with
  | none => .ok st
  | some h =>
    match st.cxxArena.get? h with
    | some (.var nm ty sc _) =>
      match D.init with
      | none => .ok st
      | some initSyn =>
        if ext.checkRedef st did then .ok st
        else
          match ext.elabExpr initSyn with
          | .tyInfo _ => .ok { st with errs := st.errs ++ ["Expected expression."] }
          | .expr e =>
            if ty = .undeduced then
              match ext.deduceAuto ty e with
              | none =>
                .ok { st with
                  errs := st.errs ++ ["Failed to deduce type of expression."] }
              | some ty2 =>
                .ok { st with
                  cxxArena := st.cxxArena.set h (.var nm ty2 sc (some e)) }
            else
              .ok { st with
                cxxArena := st.cxxArena.set h (.var nm ty sc (some e)) }
    | _ => .error .ice

/-- elaborateFunctionDef: a function whose foreign handle is absent is a
failed cast (assertion); without an initializer nothing happens; otherwise
push the saved parameter scope and a function scope, elaborate the body via
the statement collaborator, attach it, and restore the scopes. -/
def elaborateFunctionDef (ext : Externals) (did : Nat) (st : ElabState) :
    Except Abort ElabState :=
  let D := st.decls.getD did default
  match D.cxx with
  | none => .error .ice
  | some h =>
    match st.cxxArena.get? h with
    | some (.func nm ty ps _) =>
      match D.init with
      | none => .ok st
      | some initSyn =>
        if ext.checkRedef st did then .ok st
        else
          match getFunctionDeclaratorOf D.decl with
          | none => .error .ice
          | some _ =>
            match D.paramScope with
            | none => .error .ice
            | some pSc =>
              let st1 := { st with
                declStack := did :: st.declStack,
                scopes := { kind := .functionK, anchor := initSyn.nid,
                            idMap := [], nodeMap := [] } :: pSc :: st.scopes }
              let b := ext.elabBlock initSyn
              let st2 := { st1 with
                cxxArena := st1.cxxArena.set h (.func nm ty ps (some b)) }
              match st2.scopes with
              | s1 :: _ :: rest =>
                if s1.anchor = initSyn.nid then
                  .ok { st2 with scopes := rest,
                                 declStack := st2.declStack.tail }
                else .error .ice
              | _ => .error .ice
    | _ => .error .ice

/-- elaborateDef: dispatch to function-body or variable-initializer
elaboration. -/
def elaborateDef (ext : Externals) (did : Nat) (st : ElabState) :
    Except Abort ElabState :=
  if (st.decls.getD did default).declaresFunction then
    elaborateFunctionDef ext did st
  else
    elaborateVariableInit ext did st

/-- elaborateDeclInit: the per-node entry of the initializer-elaboration
pass; a node with no bound Declaration is skipped. -/
def elaborateDeclInit (ext : Externals) (S : Syn) (st0 : ElabState) :
    Except Abort ElabState :=
  let st := st0.pushEv (.initEv S.nid)
  match st.findNodeCur S.nid with
  | none => .ok st
  | some did => elaborateDef ext did st

/-- startFile: enter the global namespace scope, build the root Declaration
whose foreign handle is the translation unit (arena index 0), and push it as
the current declaration. -/
def startFile (fileNid : Nat) (st : ElabState) : ElabState :=
  let st1 := { st with
    scopes := { kind := .namespaceK, anchor := fileNid,
                idMap := [], nodeMap := [] } :: st.scopes }
  let rootId := st1.decls.length
  { st1 with
    decls := st1.decls ++
      [{ parent := none, op := .other fileNid, decl := none, init := none,
         id := none, cxx := some 0, first := rootId, next := rootId,
         paramScope := none }],
    declStack := rootId :: st1.declStack }

/-- finishFile: pop the current declaration and leave the global scope;
scope imbalance is a fatal internal error. -/
def finishFile (fileNid : Nat) (st : ElabState) : Except Abort ElabState :=
  match st.scopes with
  | sc :: rest =>
    if sc.anchor = fileNid then
      .ok { st with scopes := rest, declStack := st.declStack.tail }
    else .error .ice
  | [] => .error .ice

/-- The identification pass over a list of top-level nodes. -/
def runIdentify (ext : Externals) : List Syn → ElabState → Except Abort ElabState
  | [], st => .ok st
  | c :: cs, st =>
    match identifyDecl ext c st with
    | .error a => .error a
    | .ok st1 => runIdentify ext cs st1

/-- The type-elaboration pass over a list of top-level nodes. -/
def runTypeElaborate (ext : Externals) :
    List Syn → ElabState → Except Abort ElabState
  | [], st => .ok st
  | c :: cs, st =>
    match elaborateDeclType ext c st with
    | .error a => .error a
    | .ok (st1, _) => runTypeElaborate ext cs st1

/-- The initializer-elaboration pass over a list of top-level nodes. -/
def runInitElaborate (ext : Externals) :
    List Syn → ElabState → Except Abort ElabState
  | [], st => .ok st
  | c :: cs, st =>
    match elaborateDeclInit ext c st with
    | .error a => .error a
    | .ok st1 => runInitElaborate ext cs st1

/-- elaborateFile: start the file, run the three passes each file-wide over
every top-level child in source order, finish the file, and return the
translation unit handle (arena index 0). -/
def elaborateFile (ext : Externals) (fileNid : Nat) (children : List Syn)
    (st : ElabState) : Except Abort (ElabState × Nat) := do
  let st1 := startFile fileNid st
  let st2 ← runIdentify ext children st1
  let st3 ← runTypeElaborate ext children st2
  let st4 ← runInitElaborate ext children st3
  let st5 ← finishFile fileNid st4
  .ok (st5, 0)

/-- The state a translation unit starts from: no scopes, no declarations,
the translation unit as the only preexisting foreign object. -/
def initState : ElabState :=
  { scopes := [], decls := [], cxxArena := [.tu], diags := [], errs := [],
    declStack := [], trace := [] }

/-! ### Basic state lemmas -/

@[simp] theorem pushEv_scopes (st : ElabState) (e : Ev) :
    (st.pushEv e).scopes = st.scopes := rfl

@[simp] theorem pushEv_decls (st : ElabState) (e : Ev) :
    (st.pushEv e).decls = st.decls := rfl

@[simp] theorem pushEv_cxxArena (st : ElabState) (e : Ev) :
    (st.pushEv e).cxxArena = st.cxxArena := rfl

@[simp] theorem pushEv_diags (st : ElabState) (e : Ev) :
    (st.pushEv e).diags = st.diags := rfl

@[simp] theorem pushEv_errs (st : ElabState) (e : Ev) :
    (st.pushEv e).errs = st.errs := rfl

@[simp] theorem pushEv_declStack (st : ElabState) (e : Ev) :
    (st.pushEv e).declStack = st.declStack := rfl

@[simp] theorem pushEv_trace (st : ElabState) (e : Ev) :
    (st.pushEv e).trace = st.trace ++ [e] := rfl

@[simp] theorem pushEv_sansTrace (st : ElabState) (e : Ev) :
    (st.pushEv e).sansTrace = st.sansTrace := rfl

@[simp] theorem pushEv_curScope (st : ElabState) (e : Ev) :
    (st.pushEv e).curScope = st.curScope := rfl

@[simp] theorem pushEv_isBlockScope (st : ElabState) (e : Ev) :
    (st.pushEv e).isBlockScope = st.isBlockScope := rfl

@[simp] theorem pushEv_isParameterScope (st : ElabState) (e : Ev) :
    (st.pushEv e).isParameterScope = st.isParameterScope := rfl

@[simp] theorem pushEv_isNamespaceScope (st : ElabState) (e : Ev) :
    (st.pushEv e).isNamespaceScope = st.isNamespaceScope := rfl

@[simp] theorem pushEv_findIdCur (st : ElabState) (e : Ev) (s? : Option String) :
    (st.pushEv e).findIdCur s? = st.findIdCur s? := rfl

@[simp] theorem pushEv_findNodeCur (st : ElabState) (e : Ev) (n : Nat) :
    (st.pushEv e).findNodeCur n = st.findNodeCur n := rfl

@[simp] theorem report_scopes (st : ElabState) (l : Nat) (k : DiagKind) :
    (st.report l k).scopes = st.scopes := rfl

@[simp] theorem report_decls (st : ElabState) (l : Nat) (k : DiagKind) :
    (st.report l k).decls = st.decls := rfl

@[simp] theorem report_cxxArena (st : ElabState) (l : Nat) (k : DiagKind) :
    (st.report l k).cxxArena = st.cxxArena := rfl

@[simp] theorem report_trace (st : ElabState) (l : Nat) (k : DiagKind) :
    (st.report l k).trace = st.trace := rfl

@[simp] theorem report_diags (st : ElabState) (l : Nat) (k : DiagKind) :
    (st.report l k).diags = st.diags ++ [(l, k)] := rfl

@[simp] theorem report_isParameterScope (st : ElabState) (l : Nat) (k : DiagKind) :
    (st.report l k).isParameterScope = st.isParameterScope := rfl

/-- A block-scope current scope is not a parameter scope. -/
theorem isBlockScope_not_param {st : ElabState} (h : st.isBlockScope = true) :
    st.isParameterScope = false := by
  unfold ElabState.isBlockScope ElabState.isParameterScope at *
  cases hsc : st.curScope with
  | none => simp [hsc] at h
  | some sc =>
    simp [hsc] at h ⊢
    simp [h]

/-- A namespace-scope current scope is not a parameter scope. -/
theorem isNamespaceScope_not_param {st : ElabState}
    (h : st.isNamespaceScope = true) : st.isParameterScope = false := by
  unfold ElabState.isNamespaceScope ElabState.isParameterScope at *
  cases hsc : st.curScope with
  | none => simp [hsc] at h
  | some sc =>
    simp [hsc] at h ⊢
    simp [h]

/-- A namespace-scope current scope is not a block scope. -/
theorem isNamespaceScope_not_block {st : ElabState}
    (h : st.isNamespaceScope = true) : st.isBlockScope = false := by
  unfold ElabState.isNamespaceScope ElabState.isBlockScope at *
  cases hsc : st.curScope with
  | none => simp [hsc] at h
  | some sc =>
    simp [hsc] at h ⊢
    simp [h]

/-- A parameter-scope current scope is not a block scope. -/
theorem isParameterScope_not_block {st : ElabState}
    (h : st.isParameterScope = true) : st.isBlockScope = false := by
  unfold ElabState.isParameterScope ElabState.isBlockScope at *
  cases hsc : st.curScope with
  | none => simp [hsc] at h
  | some sc =>
    simp [hsc] at h ⊢
    simp [h]

/-! ### Shared concrete material for witnesses -/

/-- A concrete external-collaborator instance: no tag names resolve, every
declared type translates to int, initializers elaborate to expression 7,
no redefinitions. -/
def extId : Externals :=
  { lookupTag := fun _ _ => false,
    elabTypeExpr := fun _ _ => some (.named "int"),
    funcParams := fun _ _ => [],
    paramScope := fun _ _ =>
      { kind := .parameterK, anchor := 0, idMap := [], nodeMap := [] },
    elabExpr := fun _ => .expr 7,
    deduceAuto := fun _ _ => some (.named "int"),
    checkRedef := fun _ _ => false,
    elabBlock := fun _ => 42 }

/-- A state whose current scope is an empty block scope. -/
def stBlock0 : ElabState :=
  { scopes := [{ kind := .blockK, anchor := 0, idMap := [], nodeMap := [] }],
    decls := [], cxxArena := [.tu], diags := [], errs := [], declStack := [],
    trace := [] }

/-- A state whose current scope is an empty namespace scope. -/
def stNs0 : ElabState :=
  { scopes := [{ kind := .namespaceK, anchor := 0, idMap := [], nodeMap := [] }],
    decls := [], cxxArena := [.tu], diags := [], errs := [], declStack := [],
    trace := [] }

/-- A state whose current scope is an empty parameter scope. -/
def stParam0 : ElabState :=
  { scopes := [{ kind := .parameterK, anchor := 0, idMap := [], nodeMap := [] }],
    decls := [], cxxArena := [.tu], diags := [], errs := [], declStack := [],
    trace := [] }

/-- Assignment-style declaration syntax: lhs operator-equals rhs. -/
def eqForm (nid : Nat) (lhs rhs : Syn) : Syn :=
  .call nid (.atom (nid + 100) "operator\x27=\x27") (nid + 200) [lhs, rhs]

/-- Bare declaration syntax: lhs operator-colon rhs. -/
def colonForm (nid : Nat) (lhs rhs : Syn) : Syn :=
  .call nid (.atom (nid + 100) "operator\x27:\x27") (nid + 200) [lhs, rhs]

/-- Definition-only syntax: lhs operator-exclaim rhs. -/
def bangForm (nid : Nat) (lhs rhs : Syn) : Syn :=
  .call nid (.atom (nid + 100) "operator\x27!\x27") (nid + 200) [lhs, rhs]

/-! ### C7: leaf-node type/identifier tie-break -/

/-- C7: for every leaf (atom) node handed to the declarator builder, the
tag-name lookup against the scopes built so far decides the fragment: a
resolved spelling yields a Type fragment, an unresolved one an Identifier
fragment. -/
theorem makeDeclarator_atom_tag_tiebreak (ext : Externals) (scopes : List Scope)
    (nid : Nat) (sp : String) (next : Option Declarator) :
    makeDeclarator ext scopes (.atom nid sp) next =
      .ok (some (if ext.lookupTag scopes sp then
                   buildTypeDeclarator (.atom nid sp) next
                 else
                   buildIdDeclarator (.atom nid sp) next)) ∧
    ∃ d, makeDeclarator ext scopes (.atom nid sp) next = .ok (some d) ∧
      d.kind = (if ext.lookupTag scopes sp then DKind.typeK else DKind.identifier) := by
  cases h : ext.lookupTag scopes sp <;>
    simp [makeDeclarator_atom, h, buildTypeDeclarator, buildIdDeclarator,
          Declarator.kind]


/-! ### C8: pointer and function declarator decomposition -/

/-- Concrete pointer-to-function declaration syntax: pf declared with type
pointer-of (f applied to int). -/
def pfSyn : Syn := colonForm 1 (.atom 11 "pf")
  (.call 13 (.atom 14 "operator\x27^\x27") 15
    [.call 16 (.atom 17 "f") 18 [.atom 19 "int"]])

/-- C8: the unary pointer-of form first builds the pointee chain from its
operand and then prepends a Pointer fragment; any other invocation (neither
declare-with-type nor pointer-of) recurses into the callee with a prepended
Function fragment carrying the call; and the concrete pointer-to-function
declaration composes the Pointer fragment before the Function fragment,
matching the source-written nesting. -/
theorem makeDeclarator_pointer_function_nesting :
    (∀ (ext : Externals) (scopes : List Scope) (nid cn anid : Nat) (a0 : Syn)
       (rest : List Syn) (next : Option Declarator),
      makeDeclarator ext scopes
          (.call nid (.atom cn "operator\x27^\x27") anid (a0 :: rest)) next =
        match makeDeclarator ext scopes a0 next with
        | .error a => .error a
        | .ok n => .ok (some (buildPointerDeclarator
            (.call nid (.atom cn "operator\x27^\x27") anid (a0 :: rest)) n))) ∧
    (∀ (ext : Externals) (scopes : List Scope) (nid cn anid : Nat)
       (csp : String) (args : List Syn) (next : Option Declarator),
      csp ≠ "operator\x27:\x27" → csp ≠ "operator\x27^\x27" →
      makeDeclarator ext scopes (.call nid (.atom cn csp) anid args) next =
        makeDeclarator ext scopes (.atom cn csp)
          (some (buildFunctionDeclarator
            (.call nid (.atom cn csp) anid args) next))) ∧
    ((makeDeclarator extId [] pfSyn none).map (Option.map Declarator.kinds) =
      .ok (some [DKind.identifier, DKind.pointer, DKind.identifier,
                 DKind.functionK])) := by
  refine ⟨?_, ?_, ?_⟩
  · intro ext scopes nid cn anid a0 rest next
    rw [makeDeclarator_call_atom]
    simp only [makeDeclOp, String.reduceEq, if_false, if_true, reduceIte]
    rw [makeDeclPtr,
      makeDeclaratorF_args_eq ext scopes (a0 :: rest) a0 (by simp) next]
    cases makeDeclarator ext scopes a0 next with
    | error a => rfl
    | ok n => rfl
  · intro ext scopes nid cn anid csp args next h1 h2
    rw [makeDeclarator_call_atom]
    simp only [makeDeclOp, h1, h2, if_false]
    rw [makeDeclaratorF_mono ext scopes (1 + Syn.depthList args)
      (.atom cn csp) (Syn.atom cn csp).depth
      (by simp only [depth_atom]; omega) (le_refl _)]
    rfl
  · rfl

/-- C8 witness: the function-declarator equation applied at a concrete
invocation with callee spelling f. -/
theorem makeDeclarator_pointer_function_nesting_witness :
    ("f" ≠ "operator\x27:\x27") ∧ ("f" ≠ "operator\x27^\x27") ∧
    makeDeclarator extId [] (.call 1 (.atom 2 "f") 3 [.atom 4 "int"]) none =
      makeDeclarator extId [] (.atom 2 "f")
        (some (buildFunctionDeclarator
          (.call 1 (.atom 2 "f") 3 [.atom 4 "int"]) none)) :=
  ⟨by decide, by decide,
   makeDeclarator_pointer_function_nesting.2.1 extId [] 1 2 3 "f"
     [.atom 4 "int"] none (by decide) (by decide)⟩

/-! ### C2: block-scope re-assignment is not a declaration -/

/-- Concrete first assignment: x = 3. -/
def s1x : Syn := eqForm 1 (.atom 11 "x") (.atom 12 "3")

/-- Concrete second assignment: x = 4. -/
def s2x : Syn := eqForm 2 (.atom 21 "x") (.atom 22 "4")

/-- The state after identifying x = 3 in an empty block scope. -/
def stB1 : ElabState := ((identifyDecl extId s1x stBlock0).toOption).getD stBlock0

/-- C2: in block scope, identifying an assignment-style form whose name is
already bound in the current block scope creates no Declaration and leaves
every binding unchanged (only the instrumentation trace notes the visit);
concretely, x = 3 followed by x = 4 yields exactly one Declaration for x. -/
theorem identifyDecl_block_reassignment :
    (∀ (ext : Externals) (st : ElabState) (nid cnid anid : Nat) (dS iS : Syn)
       (dcl : Declarator) (sp : String),
      st.isBlockScope = true →
      makeDeclarator ext st.scopes dS none = .ok (some dcl) →
      getIdentifier dcl = some sp →
      (st.findIdCur (some sp)).isSome = true →
      identifyDecl ext
          (.call nid (.atom cnid "operator\x27=\x27") anid [dS, iS]) st =
        .ok (st.pushEv (.identifyEv nid))) ∧
    (∃ st1, identifyDecl extId s1x stBlock0 = .ok st1 ∧
       identifyDecl extId s2x st1 = .ok (st1.pushEv (.identifyEv 2)) ∧
       st1.decls.length = 1 ∧ st1.findIdCur (some "x") = some 0 ∧
       (st1.pushEv (.identifyEv 2)).sansTrace = st1.sansTrace) := by
  constructor
  · intro ext st nid cnid anid dS iS dcl sp hblock hmk hid hbound
    have hpar : st.isParameterScope = false := isBlockScope_not_param hblock
    simp only [identifyDecl, identifyUnpack, identifyUnpackPair, identifyForm,
      identifyWithDecl, pushEv_scopes, pushEv_isParameterScope,
      pushEv_isBlockScope, pushEv_findIdCur, hmk, hid, hbound, hblock, hpar,
      String.reduceEq, if_true, if_false, reduceIte, Bool.false_and,
      Bool.and_true, Bool.true_and, Bool.not_false, Bool.and_self,
      Bool.false_eq_true, Syn.nid]
  · exact ⟨_, rfl, rfl, rfl, rfl, rfl⟩

/-- C2 witness: the general statement applied to the concrete second
assignment x = 4 in the state left by identifying x = 3. -/
theorem identifyDecl_block_reassignment_witness :
    (stB1.isBlockScope = true) ∧
    (makeDeclarator extId stB1.scopes (.atom 21 "x") none =
      .ok (some (buildIdDeclarator (.atom 21 "x") none))) ∧
    (getIdentifier (buildIdDeclarator (.atom 21 "x") none) = some "x") ∧
    ((stB1.findIdCur (some "x")).isSome = true) ∧
    identifyDecl extId
        (.call 2 (.atom 102 "operator\x27=\x27") 202 [.atom 21 "x", .atom 22 "4"])
        stB1 =
      .ok (stB1.pushEv (.identifyEv 2)) :=
  ⟨rfl, rfl, rfl, rfl,
   identifyDecl_block_reassignment.1 extId stB1 2 102 202 (.atom 21 "x")
     (.atom 22 "4") (buildIdDeclarator (.atom 21 "x") none) "x"
     rfl rfl rfl rfl⟩

/-! ### C3: namespace/parameter redeclaration chaining -/

@[simp] theorem addDeclCur_decls (st : ElabState) (n : Nat)
    (i? : Option String) (d : Nat) : (st.addDeclCur n i? d).decls = st.decls := by
  unfold ElabState.addDeclCur
  cases st.scopes <;> rfl

@[simp] theorem addDeclCur_diags (st : ElabState) (n : Nat)
    (i? : Option String) (d : Nat) : (st.addDeclCur n i? d).diags = st.diags := by
  unfold ElabState.addDeclCur
  cases st.scopes <;> rfl

@[simp] theorem addDeclCur_trace (st : ElabState) (n : Nat)
    (i? : Option String) (d : Nat) : (st.addDeclCur n i? d).trace = st.trace := by
  unfold ElabState.addDeclCur
  cases st.scopes <;> rfl

@[simp] theorem addDeclCur_cxxArena (st : ElabState) (n : Nat)
    (i? : Option String) (d : Nat) :
    (st.addDeclCur n i? d).cxxArena = st.cxxArena := by
  unfold ElabState.addDeclCur
  cases st.scopes <;> rfl

theorem getD_append_len {α : Type} (l : List α) (x : α) (d : α) :
    (l ++ [x]).getD l.length d = x := by
  simp [List.getD]

theorem getD_append_at {α : Type} (l : List α) (x : α) (d : α) (i : Nat)
    (h : i = l.length) : (l ++ [x]).getD i d = x := by
  subst h
  simp [List.getD]

theorem getD_append_lt {α : Type} (l l2 : List α) (d : α) (i : Nat)
    (h : i < l.length) : (l ++ l2).getD i d = l.getD i d := by
  simp [List.getD, List.getElem?_append, h]

theorem getD_set_self {α : Type} (l : List α) (i : Nat) (v d : α)
    (h : i < l.length) : (l.set i v).getD i d = v := by
  simp [List.getD, List.getElem?_set_self, h]

/-- Building the declarator of a bare declaration whose two operands are
atoms: an identifier head chained to a type fragment, provided the name does
not resolve as a tag. -/
theorem makeDeclarator_colon_atoms (ext : Externals) (scopes : List Scope)
    (nid cnid anid a0n a1n : Nat) (sp tsp : String)
    (hlk : ext.lookupTag scopes sp = false) :
    makeDeclarator ext scopes
        (.call nid (.atom cnid "operator\x27:\x27") anid
          [.atom a0n sp, .atom a1n tsp]) none =
      .ok (some (.ident (.atom a0n sp)
        (some (.type (some (.atom a1n tsp))
          (some (.call nid (.atom cnid "operator\x27:\x27") anid
            [.atom a0n sp, .atom a1n tsp])) none)))) := by
  rw [makeDeclarator_call_atom]
  simp only [makeDeclOp, String.reduceEq, if_true, if_false, reduceIte,
    makeDeclColon, makeDeclColonRhs]
  rw [makeDeclaratorF_args_eq ext scopes [.atom a0n sp, .atom a1n tsp]
    (.atom a0n sp) (by simp)]
  rw [makeDeclarator_atom]
  simp [hlk, buildIdDeclarator, buildTypeDeclarator]

@[simp] theorem isIdentifier_ident (a : Syn) (n : Option Declarator) :
    (Declarator.ident a n).isIdentifier = true := rfl

/-- The declarator chain the builder produces for a bare declaration whose
operands are both atoms. -/
def colonAtomChain (nid cnid anid a0n a1n : Nat) (sp tsp : String) :
    Declarator :=
  .ident (.atom a0n sp)
    (some (.type (some (.atom a1n tsp))
      (some (.call nid (.atom cnid "operator\x27:\x27") anid
        [.atom a0n sp, .atom a1n tsp])) none))

/-- The state identifyDecl produces when a bare declaration rebinds an
already-bound name in a namespace or parameter scope. -/
def chainedState (st : ElabState) (nid cnid anid a0n a1n : Nat)
    (sp tsp : String) (oldId : Nat) (old : GDecl) : ElabState :=
  let newD : GDecl :=
    { parent := st.declStack.head?,
      op := .call nid (.atom cnid "operator\x27:\x27") anid
        [.atom a0n sp, .atom a1n tsp],
      decl := some (colonAtomChain nid cnid anid a0n a1n sp tsp),
      init := none, id := some sp, cxx := none,
      first := old.first, next := old.first, paramScope := none }
  ({ st.pushEv (.identifyEv nid) with
      decls := st.decls.set oldId { old with next := st.decls.length } ++
        [newD] }).addDeclCur nid (some sp) st.decls.length

/-- C3: in namespace or parameter scope, identifying a bare declaration whose
name is already bound creates a second Declaration chained behind the
existing one: the existing Declaration now links forward to the new one, and
the new (second) Declaration points back at the first via its chain links. -/
theorem identifyDecl_namespace_redecl_chain
    (ext : Externals) (st : ElabState) (nid cnid anid a0n a1n : Nat)
    (sp tsp : String) (oldId : Nat) (old : GDecl)
    (hscope : st.isNamespaceScope = true ∨ st.isParameterScope = true)
    (hlk : ext.lookupTag st.scopes sp = false)
    (hold : st.findIdCur (some sp) = some oldId)
    (hlt : oldId < st.decls.length)
    (hget : st.decls.getD oldId default = old)
    (hfirst : old.first = oldId) :
    ∃ stF, identifyDecl ext
        (.call nid (.atom cnid "operator\x27:\x27") anid
          [.atom a0n sp, .atom a1n tsp]) st = .ok stF ∧
      stF.decls.length = st.decls.length + 1 ∧
      (stF.decls.getD st.decls.length default).first = oldId ∧
      (stF.decls.getD st.decls.length default).next = oldId ∧
      (stF.decls.getD st.decls.length default).id = some sp ∧
      stF.decls.getD oldId default = { old with next := st.decls.length } := by
  have hor : (st.isNamespaceScope || st.isParameterScope) = true := by
    cases hscope with
    | inl h => simp [h]
    | inr h => simp [h]
  refine ⟨chainedState st nid cnid anid a0n a1n sp tsp oldId old,
    ?_, ?_, ?_, ?_, ?_, ?_⟩
  · simp only [identifyDecl, identifyUnpack, Syn.nid, String.reduceEq,
      if_true, if_false, reduceIte, identifyForm, pushEv_scopes]
    rw [makeDeclarator_colon_atoms ext st.scopes nid cnid anid a0n a1n sp tsp hlk]
    simp only [identifyWithDecl, pushEv_isParameterScope,
      isIdentifier_ident, Bool.not_true, Bool.and_false, Bool.false_eq_true,
      if_false, reduceIte, getIdentifier, Declarator.getId, identifyFinish,
      pushEv_findIdCur, pushEv_decls, pushEv_declStack,
      pushEv_isNamespaceScope, hor, if_true, hold, hget]
    rfl
  · simp [chainedState]
  · simp only [chainedState, addDeclCur_decls, pushEv_decls]
    rw [getD_append_at _ _ _ _ (by simp)]
    exact hfirst
  · simp only [chainedState, addDeclCur_decls, pushEv_decls]
    rw [getD_append_at _ _ _ _ (by simp)]
    exact hfirst
  · simp only [chainedState, addDeclCur_decls, pushEv_decls]
    rw [getD_append_at _ _ _ _ (by simp)]
  · simp only [chainedState, addDeclCur_decls, pushEv_decls]
    rw [getD_append_lt _ _ _ _ (by simpa using hlt),
      getD_set_self _ _ _ _ hlt]

/-- Concrete first bare declaration: x : int. -/
def t1x : Syn := colonForm 1 (.atom 11 "x") (.atom 12 "int")

/-- Concrete second bare declaration of the same name: x : int again. -/
def t2x : Syn := colonForm 2 (.atom 21 "x") (.atom 22 "int")

/-- The state after identifying x : int in an empty namespace scope. -/
def stN1 : ElabState := ((identifyDecl extId t1x stNs0).toOption).getD stNs0

/-- The Declaration created for the first x : int. -/
def stN1decl0 : GDecl :=
  { parent := none, op := colonForm 1 (.atom 11 "x") (.atom 12 "int"),
    decl := some (colonAtomChain 1 101 201 11 12 "x" "int"),
    init := none, id := some "x", cxx := none, first := 0, next := 0,
    paramScope := none }

/-- C3 witness: the chaining statement applied to the concrete second
x : int in the namespace state left by the first. -/
theorem identifyDecl_namespace_redecl_chain_witness :
    (stN1.isNamespaceScope = true ∨ stN1.isParameterScope = true) ∧
    (extId.lookupTag stN1.scopes "x" = false) ∧
    (stN1.findIdCur (some "x") = some 0) ∧
    (0 < stN1.decls.length) ∧
    (stN1.decls.getD 0 default = stN1decl0) ∧
    (stN1decl0.first = 0) ∧
    (∃ stF, identifyDecl extId
        (.call 2 (.atom 102 "operator\x27:\x27") 202
          [.atom 21 "x", .atom 22 "int"]) stN1 = .ok stF ∧
      stF.decls.length = stN1.decls.length + 1 ∧
      (stF.decls.getD stN1.decls.length default).first = 0 ∧
      (stF.decls.getD stN1.decls.length default).next = 0 ∧
      (stF.decls.getD stN1.decls.length default).id = some "x" ∧
      stF.decls.getD 0 default = { stN1decl0 with next := stN1.decls.length }) :=
  ⟨Or.inl rfl, rfl, rfl, by decide, rfl, rfl,
   identifyDecl_namespace_redecl_chain extId stN1 2 102 202 21 22 "x" "int"
     0 stN1decl0 (Or.inl rfl) rfl rfl (by decide) rfl rfl⟩

/-! ### C9: block-scope bare redeclaration creates an unchained Declaration -/

/-- A block-scope current scope is not a namespace scope. -/
theorem isBlockScope_not_namespace {st : ElabState}
    (h : st.isBlockScope = true) : st.isNamespaceScope = false := by
  unfold ElabState.isBlockScope ElabState.isNamespaceScope at *
  cases hsc : st.curScope with
  | none => simp [hsc] at h
  | some sc =>
    simp [hsc] at h ⊢
    simp [h]

/-- The state identifyDecl produces for a bare declaration in block scope:
the new Declaration is simply appended and bound, with self chain links. -/
def blockRedeclState (st : ElabState) (nid cnid anid a0n a1n : Nat)
    (sp tsp : String) : ElabState :=
  let newD : GDecl :=
    { parent := st.declStack.head?,
      op := .call nid (.atom cnid "operator\x27:\x27") anid
        [.atom a0n sp, .atom a1n tsp],
      decl := some (colonAtomChain nid cnid anid a0n a1n sp tsp),
      init := none, id := some sp, cxx := none,
      first := st.decls.length, next := st.decls.length, paramScope := none }
  ({ st.pushEv (.identifyEv nid) with
      decls := st.decls ++ [newD] }).addDeclCur nid (some sp) st.decls.length

/-- C9: in block scope, a repeated bare declaration of an already-bound name
creates a new Declaration whose chain links point at itself (no link to the
earlier Declaration, which stays untouched because the Declaration arena is
only appended to), and the new Declaration is bound in the scope; the
block-scope suppression applies only to the assignment-style form and the
chaining only to namespace or parameter scope. -/
theorem identifyDecl_block_bare_redecl_no_chain
    (ext : Externals) (st : ElabState) (sc : Scope) (scRest : List Scope)
    (nid cnid anid a0n a1n : Nat) (sp tsp : String) (oldId : Nat)
    (hblock : st.isBlockScope = true)
    (hsc : st.scopes = sc :: scRest)
    (hlk : ext.lookupTag st.scopes sp = false)
    (hold : st.findIdCur (some sp) = some oldId) :
    identifyDecl ext
        (.call nid (.atom cnid "operator\x27:\x27") anid
          [.atom a0n sp, .atom a1n tsp]) st =
      .ok (blockRedeclState st nid cnid anid a0n a1n sp tsp) ∧
    (blockRedeclState st nid cnid anid a0n a1n sp tsp).decls =
      st.decls ++
        [{ parent := st.declStack.head?,
           op := .call nid (.atom cnid "operator\x27:\x27") anid
             [.atom a0n sp, .atom a1n tsp],
           decl := some (colonAtomChain nid cnid anid a0n a1n sp tsp),
           init := none, id := some sp, cxx := none,
           first := st.decls.length, next := st.decls.length,
           paramScope := none }] ∧
    (blockRedeclState st nid cnid anid a0n a1n sp tsp).scopes =
      { sc with nodeMap := (nid, st.decls.length) :: sc.nodeMap,
                idMap := (sp, st.decls.length) :: sc.idMap } :: scRest := by
  have hpar : st.isParameterScope = false := isBlockScope_not_param hblock
  have hns : st.isNamespaceScope = false := isBlockScope_not_namespace hblock
  refine ⟨?_, ?_, ?_⟩
  · simp only [identifyDecl, identifyUnpack, Syn.nid, String.reduceEq,
      if_true, if_false, reduceIte, identifyForm, pushEv_scopes]
    rw [makeDeclarator_colon_atoms ext st.scopes nid cnid anid a0n a1n sp tsp hlk]
    simp only [identifyWithDecl, pushEv_isParameterScope,
      isIdentifier_ident, Bool.not_true, Bool.and_false, Bool.false_eq_true,
      if_false, reduceIte, getIdentifier, Declarator.getId, identifyFinish,
      pushEv_findIdCur, pushEv_decls, pushEv_declStack,
      pushEv_isNamespaceScope, pushEv_isParameterScope, hpar, hns,
      Bool.or_self]
    rfl
  · simp only [blockRedeclState, addDeclCur_decls, pushEv_decls]
  · simp only [blockRedeclState, ElabState.addDeclCur, pushEv_scopes, hsc]

/-- C9 witness: the unchained-redeclaration statement applied to a concrete
repeated x : int in the block state left by x = 3. -/
theorem identifyDecl_block_bare_redecl_no_chain_witness :
    (stB1.isBlockScope = true) ∧
    (stB1.scopes = [{ kind := .blockK, anchor := 0, idMap := [("x", 0)],
                      nodeMap := [(1, 0)] }]) ∧
    (extId.lookupTag stB1.scopes "x" = false) ∧
    (stB1.findIdCur (some "x") = some 0) ∧
    identifyDecl extId
        (.call 5 (.atom 105 "operator\x27:\x27") 205
          [.atom 51 "x", .atom 52 "int"]) stB1 =
      .ok (blockRedeclState stB1 5 105 205 51 52 "x" "int") :=
  ⟨rfl, rfl, rfl, rfl,
   (identifyDecl_block_bare_redecl_no_chain extId stB1
     { kind := .blockK, anchor := 0, idMap := [("x", 0)], nodeMap := [(1, 0)] }
     [] 5 105 205 51 52 "x" "int" 0 rfl rfl rfl rfl).1⟩

/-! ### C6: parameter-scope declarator restriction behavior -/

/-- An external-collaborator instance in which every spelling resolves as a
tag name (so every leaf becomes a Type fragment). -/
def extTags : Externals :=
  { extId with lookupTag := fun _ _ => true }

/-- C6 evidence: in parameter scope the definition-only form aborts the whole
pipeline through an assertion (no diagnostic is produced), the
name-colon-type-equals-default form is accepted silently as a declaration
with no report at all, and a declarator whose head is not an identifier
aborts through the invalid-parameter assertion instead of a per-parameter
report. -/
theorem identifyDecl_param_scope_rejection_behavior :
    (identifyDecl extId (bangForm 1 (.atom 11 "f") (.atom 12 "0")) stParam0 =
      .error .funcDefInParamScope) ∧
    (∃ st', identifyDecl extId
        (eqForm 2 (colonForm 3 (.atom 31 "p") (.atom 32 "T")) (.atom 21 "d"))
        stParam0 = .ok st' ∧ st'.decls.length = 1 ∧ st'.diags = []) ∧
    (identifyDecl extTags (colonForm 4 (.atom 41 "T") (.atom 42 "U"))
        stParam0 = .error .invalidParamDecl) :=
  ⟨rfl, ⟨_, rfl, rfl, rfl⟩, rfl⟩

/-! ### C4: undeduced type with no initializer is silently accepted -/

/-- C4 evidence: initializer elaboration of a materialized variable whose
type is the undetermined placeholder and that has no initializer returns with
the state completely unchanged: no DeducedTypeFailure (nor any other)
diagnostic is reported, contradicting the documented intent. -/
theorem elaborateVariableInit_undeduced_no_init_silent
    (ext : Externals) (st : ElabState) (did h : Nat) (D : GDecl)
    (nm : Option String) (sc : StorageClass) (ini : Option Nat)
    (hD : st.decls.getD did default = D)
    (hfn : D.declaresFunction = false)
    (hcxx : D.cxx = some h)
    (harena : st.cxxArena.get? h = some (.var nm .undeduced sc ini))
    (hinit : D.init = none) :
    elaborateVariableInit ext did st = .ok st ∧
    elaborateDef ext did st = .ok st := by
  have hvar : elaborateVariableInit ext did st = .ok st := by
    simp only [elaborateVariableInit, hD, hcxx, harena, hinit]
  exact ⟨hvar, by simp only [elaborateDef, hD, hfn, Bool.false_eq_true,
    if_false, reduceIte, hvar]⟩

/-- A namespace state holding one materialized undeduced-type variable
x : auto with no initializer. -/
def stAuto : ElabState :=
  { scopes := [{ kind := .namespaceK, anchor := 0, idMap := [("x", 0)],
                 nodeMap := [(1, 0)] }],
    decls := [{ parent := none, op := colonForm 1 (.atom 11 "x") (.atom 12 "auto"),
                decl := some (colonAtomChain 1 101 201 11 12 "x" "auto"),
                init := none, id := some "x", cxx := some 1, first := 0,
                next := 0, paramScope := none }],
    cxxArena := [.tu, .var (some "x") .undeduced .scStatic none],
    diags := [], errs := [], declStack := [], trace := [] }

/-- C4 witness: the silent-acceptance statement applied to the concrete
x : auto declaration. -/
theorem elaborateVariableInit_undeduced_no_init_silent_witness :
    (stAuto.decls.getD 0 default =
      { parent := none, op := colonForm 1 (.atom 11 "x") (.atom 12 "auto"),
        decl := some (colonAtomChain 1 101 201 11 12 "x" "auto"),
        init := none, id := some "x", cxx := some 1, first := 0,
        next := 0, paramScope := none }) ∧
    (elaborateVariableInit extId 0 stAuto = .ok stAuto ∧
     elaborateDef extId 0 stAuto = .ok stAuto) :=
  ⟨rfl,
   elaborateVariableInit_undeduced_no_init_silent extId stAuto 0 1 _
     (some "x") .scStatic none rfl rfl rfl rfl rfl⟩

/-! ### C5: untranslatable type is reported once, handle stays absent,
initializer pass skips -/

/-- C5: when the declared type of a (non-parameter-scope) variable
Declaration cannot be translated, type elaboration reports exactly one
diagnostic and creates no foreign object, the Declaration arena (and so the
absent foreign handle) is unchanged, and the subsequent initializer
elaboration of the same Declaration returns without touching the state. -/
theorem elaborateDecl_type_fail_once_and_skip
    (ext : Externals) (st : ElabState) (did : Nat) (D : GDecl)
    (hD : st.decls.getD did default = D)
    (hfn : D.declaresFunction = false)
    (hpar : st.isParameterScope = false)
    (htype : ext.elabTypeExpr st.scopes D.decl = none)
    (hcxx : D.cxx = none) :
    elaborateDecl ext did st =
      .ok (st.report D.op.nid .errFailedToTranslateType, none) ∧
    (st.report D.op.nid .errFailedToTranslateType).diags =
      st.diags ++ [(D.op.nid, .errFailedToTranslateType)] ∧
    (st.report D.op.nid .errFailedToTranslateType).decls = st.decls ∧
    (st.report D.op.nid .errFailedToTranslateType).cxxArena = st.cxxArena ∧
    elaborateDef ext did (st.report D.op.nid .errFailedToTranslateType) =
      .ok (st.report D.op.nid .errFailedToTranslateType) := by
  refine ⟨?_, rfl, rfl, rfl, ?_⟩
  · simp only [elaborateDecl, hD, hfn, Bool.false_eq_true, if_false,
      reduceIte, elaborateVariableDecl, hpar, htype]
  · simp only [elaborateDef, report_decls, hD, hfn, Bool.false_eq_true,
      if_false, reduceIte, elaborateVariableInit, hcxx]

/-- An external-collaborator instance whose type bridge always fails. -/
def extFail : Externals :=
  { extId with elabTypeExpr := fun _ _ => none }

/-- C5 witness: the statement applied to the concrete x : int Declaration
with a failing type bridge. -/
theorem elaborateDecl_type_fail_once_and_skip_witness :
    (stN1.decls.getD 0 default = stN1decl0) ∧
    (stN1decl0.declaresFunction = false) ∧
    (stN1.isParameterScope = false) ∧
    (extFail.elabTypeExpr stN1.scopes stN1decl0.decl = none) ∧
    (stN1decl0.cxx = none) ∧
    (elaborateDecl extFail 0 stN1 =
      .ok (stN1.report stN1decl0.op.nid .errFailedToTranslateType, none) ∧
     elaborateDef extFail 0
        (stN1.report stN1decl0.op.nid .errFailedToTranslateType) =
      .ok (stN1.report stN1decl0.op.nid .errFailedToTranslateType)) :=
  ⟨rfl, rfl, rfl, rfl, rfl,
   (elaborateDecl_type_fail_once_and_skip extFail stN1 0 stN1decl0
      rfl rfl rfl rfl rfl).1,
   (elaborateDecl_type_fail_once_and_skip extFail stN1 0 stN1decl0
      rfl rfl rfl rfl rfl).2.2.2.2⟩

/-! ### C10: passes skip nodes the identification pass bound nothing to -/

/-- C10: when the current scope binds no Declaration to a node, both
elaborateDeclType and elaborateDeclInit return immediately: no foreign
object, no diagnostic, no scope or Declaration change (only the
instrumentation trace notes the visit, as the trace-erased states show). -/
theorem elaborate_passes_skip_unidentified
    (ext : Externals) (st : ElabState) (S : Syn)
    (h : st.findNodeCur S.nid = none) :
    elaborateDeclType ext S st = .ok (st.pushEv (.typeEv S.nid), none) ∧
    (st.pushEv (.typeEv S.nid)).sansTrace = st.sansTrace ∧
    elaborateDeclInit ext S st = .ok (st.pushEv (.initEv S.nid)) ∧
    (st.pushEv (.initEv S.nid)).sansTrace = st.sansTrace := by
  refine ⟨?_, rfl, ?_, rfl⟩
  · simp only [elaborateDeclType, pushEv_findNodeCur, h]
  · simp only [elaborateDeclInit, pushEv_findNodeCur, h]

/-- C10 witness: the skip statement applied to a node never identified in
the empty namespace state. -/
theorem elaborate_passes_skip_unidentified_witness :
    (stNs0.findNodeCur (Syn.other 99).nid = none) ∧
    elaborateDeclType extId (.other 99) stNs0 =
      .ok (stNs0.pushEv (.typeEv 99), none) ∧
    elaborateDeclInit extId (.other 99) stNs0 =
      .ok (stNs0.pushEv (.initEv 99)) :=
  ⟨rfl,
   (elaborate_passes_skip_unidentified extId stNs0 (.other 99) rfl).1,
   (elaborate_passes_skip_unidentified extId stNs0 (.other 99) rfl).2.2.1⟩

/-! ### C1: staged pipeline and creation order -/

/-- Well-formedness of the scope maps: every syntax-node binding of every
scope points to a valid arena Declaration whose own syntax node it is. -/
def WFmaps (st : ElabState) : Prop :=
  ∀ sc ∈ st.scopes, ∀ p ∈ sc.nodeMap,
    p.2 < st.decls.length ∧ (st.decls.getD p.2 default).op.nid = p.1

theorem WFmaps_pushEv (st : ElabState) (e : Ev) :
    WFmaps (st.pushEv e) ↔ WFmaps st := Iff.rfl

/-- States with the same scopes, same arena length, and pointwise-equal
Declaration nodes inherit map well-formedness. -/
theorem WFmaps_of_same (st st' : ElabState)
    (hsc : st'.scopes = st.scopes)
    (hlen : st'.decls.length = st.decls.length)
    (hop : ∀ i, (st'.decls.getD i default).op = (st.decls.getD i default).op)
    (h : WFmaps st) : WFmaps st' := by
  intro sc hmem p hp
  rw [hsc] at hmem
  obtain ⟨h1, h2⟩ := h sc hmem p hp
  exact ⟨by omega, by rw [hop]; exact h2⟩

theorem getD_set_ne {α : Type} (l : List α) (j i : Nat) (v d : α)
    (h : i ≠ j) : ((l.set j v).getD i d) = l.getD i d := by
  simp [List.getD, List.getElem?_set_ne (Ne.symm h)]

theorem getD_op_set (l : List GDecl) (j i : Nat) (v : GDecl)
    (hv : v.op = (l.getD j default).op) :
    ((l.set j v).getD i default).op = (l.getD i default).op := by
  by_cases hij : i = j
  · subst hij
    by_cases hl : i < l.length
    · rw [getD_set_self _ _ _ _ hl, hv]
    · rw [List.set_eq_of_length_le (by omega)]
  · rw [getD_set_ne _ _ _ _ _ hij]

/-- identifyFinish leaves the instrumentation trace unchanged. -/
theorem identifyFinish_trace (S : Syn) (i : Option Syn) (dcl : Declarator)
    (id? : Option String) (st : ElabState) :
    (identifyFinish S i dcl id? st).trace = st.trace := by
  simp only [identifyFinish]
  by_cases hc : (st.isNamespaceScope || st.isParameterScope) = true
  · simp only [hc, if_true]
    cases hf : st.findIdCur id? <;> simp [hf]
  · simp only [Bool.not_eq_true] at hc
    simp [hc]

/-- The scope stack after addDeclCur: the innermost scope gains the new
bindings, the rest is unchanged. -/
theorem addDeclCur_scopes (st : ElabState) (n : Nat) (i? : Option String)
    (d : Nat) :
    (st.addDeclCur n i? d).scopes =
      match st.scopes with
      | [] => []
      | sc :: rest =>
        ({ sc with nodeMap := (n, d) :: sc.nodeMap,
                   idMap := match i? with
                     | some s => (s, d) :: sc.idMap
                     | none => sc.idMap }) :: rest := by
  unfold ElabState.addDeclCur
  cases hs : st.scopes <;> simp [hs]

/-- Auxiliary step for map well-formedness: appending a Declaration for node
S to an arena whose nodes agree with the original state, then binding it in
the current scope, preserves well-formedness. -/
theorem WFmaps_finish_aux (st base : ElabState) (newD : GDecl) (S : Syn)
    (id? : Option String)
    (hsc : base.scopes = st.scopes)
    (hlen : base.decls.length = st.decls.length)
    (hop : ∀ k, (base.decls.getD k default).op = (st.decls.getD k default).op)
    (hnew : newD.op = S)
    (hwf : WFmaps st) :
    WFmaps (({ base with decls := base.decls ++ [newD] }).addDeclCur S.nid
      id? st.decls.length) := by
  intro sc hmem p hp
  have hresdecls : (({ base with decls := base.decls ++ [newD] }).addDeclCur
      S.nid id? st.decls.length).decls = base.decls ++ [newD] := by
    simp
  rw [addDeclCur_scopes] at hmem
  have hbsc : ({ base with decls := base.decls ++ [newD] } :
      ElabState).scopes = st.scopes := hsc
  rw [hbsc] at hmem
  rw [hresdecls]
  have hreslen : (base.decls ++ [newD]).length = st.decls.length + 1 := by
    simp [List.length_append]
    omega
  cases hs : st.scopes with
  | nil =>
    rw [hs] at hmem
    exact absurd hmem (List.not_mem_nil sc)
  | cons sc0 rest =>
    rw [hs] at hmem
    simp only [List.mem_cons] at hmem
    rcases hmem with hhead | htail
    · subst hhead
      simp only [List.mem_cons] at hp
      rcases hp with hp1 | hp2
      · subst hp1
        refine ⟨by omega, ?_⟩
        rw [getD_append_at _ _ _ _ hlen.symm, hnew]
      · obtain ⟨hlt, hnid⟩ := hwf sc0
          (by rw [hs]; exact List.mem_cons_self _ _) p hp2
        refine ⟨by omega, ?_⟩
        rw [getD_append_lt _ _ _ _ (by omega), hop]
        exact hnid
    · obtain ⟨hlt, hnid⟩ := hwf sc
        (by rw [hs]; exact List.mem_cons_of_mem _ htail) p hp
      refine ⟨by omega, ?_⟩
      rw [getD_append_lt _ _ _ _ (by omega), hop]
      exact hnid

/-- identifyFinish preserves map well-formedness. -/
theorem identifyFinish_wf (S : Syn) (i : Option Syn) (dcl : Declarator)
    (id? : Option String) (st : ElabState) (hwf : WFmaps st) :
    WFmaps (identifyFinish S i dcl id? st) := by
  simp only [identifyFinish]
  by_cases hc : (st.isNamespaceScope || st.isParameterScope) = true
  · simp only [hc, if_true]
    cases hf : st.findIdCur id? with
    | none =>
      exact WFmaps_finish_aux st st _ S id? rfl rfl (fun _ => rfl) rfl hwf
    | some oldId =>
      exact WFmaps_finish_aux st _ _ S id? rfl (by simp)
        (fun k => getD_op_set st.decls oldId k _ rfl) rfl hwf
  · simp only [Bool.not_eq_true] at hc
    simp only [hc, Bool.false_eq_true, if_false]
    exact WFmaps_finish_aux st st _ S id? rfl rfl (fun _ => rfl) rfl hwf

/-- Every successful identifyDecl run appends exactly its visit event to the
trace and preserves map well-formedness. -/
theorem identifyDecl_ok (ext : Externals) (S : Syn) (st st' : ElabState)
    (h : identifyDecl ext S st = .ok st') :
    st'.trace = st.trace ++ [.identifyEv S.nid] ∧
    (WFmaps st → WFmaps st') := by
  cases S with
  | atom nid sp =>
    simp only [identifyDecl] at h
    cases h
    exact ⟨rfl, fun hw => hw⟩
  | other nid =>
    simp only [identifyDecl] at h
    cases h
    exact ⟨rfl, fun hw => hw⟩
  | call nid callee argsNid args =>
    cases callee with
    | call m c an as =>
      simp only [identifyDecl] at h
      cases h
      exact ⟨rfl, fun hw => hw⟩
    | other m =>
      simp only [identifyDecl] at h
      cases h
      exact ⟨rfl, fun hw => hw⟩
    | atom cnid csp =>
      simp only [identifyDecl] at h
      cases hu : identifyUnpack
          (st.pushEv (.identifyEv (Syn.call nid (.atom cnid csp) argsNid args).nid))
          (.call nid (.atom cnid csp) argsNid args) csp args with
      | error a =>
        rw [hu] at h
        exact absurd h (by simp)
      | ok x =>
        rw [hu] at h
        cases x with
        | none =>
          cases h
          exact ⟨rfl, fun hw => hw⟩
        | some trip =>
          obtain ⟨dS, iS, oe⟩ := trip
          simp only [identifyForm] at h
          cases hm : makeDeclarator ext
              (st.pushEv (.identifyEv
                (Syn.call nid (.atom cnid csp) argsNid args).nid)).scopes
              dS none with
          | error a =>
            rw [hm] at h
            exact absurd h (by simp)
          | ok dd =>
            rw [hm] at h
            cases dd with
            | none =>
              cases h
              exact ⟨rfl, fun hw => hw⟩
            | some dcl =>
              simp only [identifyWithDecl] at h
              by_cases h1 : ((st.pushEv (.identifyEv
                  (Syn.call nid (.atom cnid csp) argsNid args).nid)).isParameterScope
                  && !dcl.isIdentifier) = true
              · rw [if_pos h1] at h
                exact absurd h (by simp)
              · rw [if_neg h1] at h
                by_cases h2 : ((st.pushEv (.identifyEv
                    (Syn.call nid (.atom cnid csp) argsNid args).nid)).isBlockScope
                    && ((st.pushEv (.identifyEv
                      (Syn.call nid (.atom cnid csp) argsNid args).nid)).findIdCur
                        (getIdentifier dcl)).isSome && oe) = true
                · rw [if_pos h2] at h
                  cases h
                  exact ⟨rfl, fun hw => hw⟩
                · rw [if_neg h2] at h
                  cases h
                  constructor
                  · rw [identifyFinish_trace]
                    rfl
                  · intro hw
                    exact identifyFinish_wf _ _ _ _ _ hw

/-- A successful elaborateDecl run leaves the trace unchanged (type
translation failed, one diagnostic) or appends exactly one creation event for
its own declaration node; it never touches the scope stack, the arena
length, or any Declaration's syntax node. -/
theorem elaborateDecl_ok (ext : Externals) (did : Nat) (st st' : ElabState)
    (r : Option Nat) (h : elaborateDecl ext did st = .ok (st', r)) :
    (st'.trace = st.trace ∨
     st'.trace = st.trace ++ [.createObj (st.decls.getD did default).op.nid]) ∧
    st'.scopes = st.scopes ∧
    st'.decls.length = st.decls.length ∧
    (∀ i, (st'.decls.getD i default).op = (st.decls.getD i default).op) := by
  by_cases hf : (st.decls.getD did default).declaresFunction = true
  · simp only [elaborateDecl, hf, if_true, elaborateFunctionDecl] at h
    cases ht : ext.elabTypeExpr st.scopes (st.decls.getD did default).decl with
    | none =>
      rw [ht] at h
      cases h
      exact ⟨Or.inl rfl, rfl, rfl, fun _ => rfl⟩
    | some ty =>
      rw [ht] at h
      cases hg : getFunctionDeclaratorOf (st.decls.getD did default).decl with
      | none =>
        rw [hg] at h
        exact absurd h (by simp)
      | some fd =>
        rw [hg] at h
        cases h
        refine ⟨Or.inr rfl, rfl, by simp, ?_⟩
        intro i
        exact getD_op_set st.decls did i _ rfl
  · simp only [elaborateDecl, hf, Bool.false_eq_true, if_false, reduceIte,
      elaborateVariableDecl] at h
    by_cases hp : st.isParameterScope = true
    · simp only [hp, if_true, elaborateParameterDecl] at h
      cases ht : ext.elabTypeExpr st.scopes (st.decls.getD did default).decl with
      | none =>
        rw [ht] at h
        cases h
        exact ⟨Or.inl rfl, rfl, rfl, fun _ => rfl⟩
      | some ty =>
        rw [ht] at h
        cases h
        refine ⟨Or.inr rfl, rfl, by simp, ?_⟩
        intro i
        exact getD_op_set st.decls did i _ rfl
    · simp only [hp, Bool.false_eq_true, if_false, reduceIte] at h
      cases ht : ext.elabTypeExpr st.scopes (st.decls.getD did default).decl with
      | none =>
        rw [ht] at h
        cases h
        exact ⟨Or.inl rfl, rfl, rfl, fun _ => rfl⟩
      | some ty =>
        rw [ht] at h
        cases h
        refine ⟨Or.inr rfl, rfl, by simp, ?_⟩
        intro i
        exact getD_op_set st.decls did i _ rfl

/-- A successful elaborateDef run never touches the trace, the scope stack,
or the Declaration arena. -/
theorem elaborateDef_ok (ext : Externals) (did : Nat) (st st' : ElabState)
    (h : elaborateDef ext did st = .ok st') :
    st'.trace = st.trace ∧ st'.scopes = st.scopes ∧ st'.decls = st.decls := by
  by_cases hf : (st.decls.getD did default).declaresFunction = true
  · simp only [elaborateDef, hf, if_true, elaborateFunctionDef] at h
    cases hc : (st.decls.getD did default).cxx with
    | none =>
      simp only [hc] at h
      cases h
    | some hh =>
      simp only [hc] at h
      cases ha : st.cxxArena.get? hh with
      | none =>
        simp only [ha] at h
        cases h
      | some cd =>
        simp only [ha] at h
        cases cd with
        | tu =>
          simp only at h
          cases h
        | var a b c dd =>
          simp only at h
          cases h
        | parm a b =>
          simp only at h
          cases h
        | func nm ty ps body =>
          cases hi : (st.decls.getD did default).init with
          | none =>
            simp only [hi] at h
            cases h
            exact ⟨rfl, rfl, rfl⟩
          | some initSyn =>
            simp only [hi] at h
            by_cases hr : ext.checkRedef st did = true
            · simp only [hr, if_true] at h
              cases h
              exact ⟨rfl, rfl, rfl⟩
            · simp only [hr, Bool.false_eq_true, if_false, reduceIte] at h
              cases hg : getFunctionDeclaratorOf
                  (st.decls.getD did default).decl with
              | none =>
                simp only [hg] at h
                cases h
              | some fd =>
                simp only [hg] at h
                cases hps : (st.decls.getD did default).paramScope with
                | none =>
                  simp only [hps] at h
                  cases h
                | some pSc =>
                  simp only [hps, if_pos rfl] at h
                  cases h
                  exact ⟨rfl, rfl, rfl⟩
  · simp only [elaborateDef, hf, Bool.false_eq_true, if_false, reduceIte,
      elaborateVariableInit] at h
    cases hc : (st.decls.getD did default).cxx with
    | none =>
      simp only [hc] at h
      cases h
      exact ⟨rfl, rfl, rfl⟩
    | some hh =>
      simp only [hc] at h
      cases ha : st.cxxArena.get? hh with
      | none =>
        simp only [ha] at h
        cases h
      | some cd =>
        simp only [ha] at h
        cases cd with
        | tu =>
          simp only at h
          cases h
        | func nm ty ps body =>
          simp only at h
          cases h
        | parm a b =>
          simp only at h
          cases h
        | var nm ty sc ini =>
          cases hi : (st.decls.getD did default).init with
          | none =>
            simp only [hi] at h
            cases h
            exact ⟨rfl, rfl, rfl⟩
          | some initSyn =>
            simp only [hi] at h
            by_cases hr : ext.checkRedef st did = true
            · simp only [hr, if_true] at h
              cases h
              exact ⟨rfl, rfl, rfl⟩
            · simp only [hr, Bool.false_eq_true, if_false, reduceIte] at h
              cases he : ext.elabExpr initSyn with
              | tyInfo t =>
                simp only [he] at h
                cases h
                exact ⟨rfl, rfl, rfl⟩
              | expr e =>
                simp only [he] at h
                by_cases hu : ty = CxxTy.undeduced
                · subst hu
                  simp only [reduceIte] at h
                  cases hd : ext.deduceAuto CxxTy.undeduced e with
                  | none =>
                    simp only [hd] at h
                    cases h
                    exact ⟨rfl, rfl, rfl⟩
                  | some ty2 =>
                    simp only [hd] at h
                    cases h
                    exact ⟨rfl, rfl, rfl⟩
                · simp only [if_neg hu] at h
                  cases h
                  exact ⟨rfl, rfl, rfl⟩

/-- A successful node lookup in a well-formed state lands on a valid arena
Declaration for exactly that node. -/
theorem findNodeCur_wf (st : ElabState) (n did : Nat) (hwf : WFmaps st)
    (h : st.findNodeCur n = some did) :
    did < st.decls.length ∧ (st.decls.getD did default).op.nid = n := by
  unfold ElabState.findNodeCur ElabState.curScope at h
  cases hs : st.scopes with
  | nil => rw [hs] at h; simp at h
  | cons sc rest =>
    rw [hs] at h
    simp only [List.head?] at h
    unfold Scope.findNode at h
    cases hf : sc.nodeMap.find? (fun p => p.1 = n) with
    | none => rw [hf] at h; simp at h
    | some pr =>
      rw [hf] at h
      simp only [Option.map_some'] at h
      have hmem := List.mem_of_find?_eq_some hf
      have hpred := List.find?_some hf
      have h1 : pr.1 = n := by simpa using hpred
      obtain ⟨hlt, hnid⟩ := hwf sc
        (by rw [hs]; exact List.mem_cons_self _ _) pr hmem
      have h2 : pr.2 = did := by injection h
      rw [← h2, ← h1]
      exact ⟨hlt, hnid⟩

/-- One type-elaboration pass step: the trace gains the visit event and at
most one creation event tagged with the visited node, and well-formedness is
preserved. -/
theorem elaborateDeclType_ok (ext : Externals) (c : Syn) (st st' : ElabState)
    (r : Option Nat) (hwf : WFmaps st)
    (h : elaborateDeclType ext c st = .ok (st', r)) :
    (st'.trace = st.trace ++ [.typeEv c.nid] ∨
     st'.trace = st.trace ++ [.typeEv c.nid, .createObj c.nid]) ∧
    WFmaps st' := by
  simp only [elaborateDeclType, pushEv_findNodeCur] at h
  cases hn : st.findNodeCur c.nid with
  | none =>
    rw [hn] at h
    cases h
    exact ⟨Or.inl rfl, hwf⟩
  | some did =>
    rw [hn] at h
    obtain ⟨htr, hsc, hlen, hop⟩ := elaborateDecl_ok ext did _ st' r h
    obtain ⟨hlt, hnid⟩ := findNodeCur_wf st c.nid did hwf hn
    constructor
    · rcases htr with htr | htr
      · exact Or.inl (by rw [htr]; rfl)
      · refine Or.inr ?_
        rw [htr]
        simp only [pushEv_decls, pushEv_trace, hnid]
        simp [List.append_assoc]
    · exact WFmaps_of_same (st.pushEv (.typeEv c.nid)) st' hsc hlen hop hwf

/-- One initializer-elaboration pass step: the trace gains exactly the visit
event and well-formedness is preserved. -/
theorem elaborateDeclInit_ok (ext : Externals) (c : Syn) (st st' : ElabState)
    (hwf : WFmaps st) (h : elaborateDeclInit ext c st = .ok st') :
    st'.trace = st.trace ++ [.initEv c.nid] ∧ WFmaps st' := by
  simp only [elaborateDeclInit, pushEv_findNodeCur] at h
  cases hn : st.findNodeCur c.nid with
  | none =>
    rw [hn] at h
    cases h
    exact ⟨rfl, hwf⟩
  | some did =>
    rw [hn] at h
    obtain ⟨htr, hsc, hdecls⟩ := elaborateDef_ok ext did _ st' h
    refine ⟨by rw [htr]; rfl, ?_⟩
    exact WFmaps_of_same (st.pushEv (.initEv c.nid)) st' hsc
      (by rw [hdecls]) (fun i => by rw [hdecls]) hwf

/-- The trace the type-elaboration pass produces: per node in source order,
the visit event followed (when the node's declaration was materialized) by
its creation event. -/
def typeEvs : List Syn → List Bool → List Ev
  | c :: cs, b :: bs =>
    Ev.typeEv c.nid :: ((if b then [Ev.createObj c.nid] else []) ++ typeEvs cs bs)
  | _, _ => []

/-- The identification pass visits every node in source order. -/
theorem runIdentify_ok (ext : Externals) :
    ∀ (cs : List Syn) (st st' : ElabState),
    runIdentify ext cs st = .ok st' → WFmaps st →
    st'.trace = st.trace ++ cs.map (fun c => Ev.identifyEv c.nid) ∧
    WFmaps st' := by
  intro cs
  induction cs with
  | nil =>
    intro st st' h hwf
    cases h
    exact ⟨by simp, hwf⟩
  | cons c cs ih =>
    intro st st' h hwf
    simp only [runIdentify] at h
    cases hr : identifyDecl ext c st with
    | error a =>
      rw [hr] at h
      cases h
    | ok st1 =>
      simp only [hr] at h
      obtain ⟨ht1, hwf1⟩ := identifyDecl_ok ext c st st1 hr
      obtain ⟨ht2, hwf2⟩ := ih st1 st' h (hwf1 hwf)
      refine ⟨?_, hwf2⟩
      rw [ht2, ht1]
      simp

/-- The type-elaboration pass visits every node in source order, creating at
most one foreign object per node, tagged with that node, in source order. -/
theorem runTypeElaborate_ok (ext : Externals) :
    ∀ (cs : List Syn) (st st' : ElabState),
    runTypeElaborate ext cs st = .ok st' → WFmaps st →
    ∃ flags : List Bool, flags.length = cs.length ∧
      st'.trace = st.trace ++ typeEvs cs flags ∧ WFmaps st' := by
  intro cs
  induction cs with
  | nil =>
    intro st st' h hwf
    cases h
    exact ⟨[], rfl, by simp [typeEvs], hwf⟩
  | cons c cs ih =>
    intro st st' h hwf
    simp only [runTypeElaborate] at h
    cases hr : elaborateDeclType ext c st with
    | error a =>
      rw [hr] at h
      cases h
    | ok pr =>
      obtain ⟨st1, r⟩ := pr
      simp only [hr] at h
      obtain ⟨htr, hwf1⟩ := elaborateDeclType_ok ext c st st1 r hwf hr
      obtain ⟨flags, hfl, ht2, hwf2⟩ := ih st1 st' h hwf1
      rcases htr with htr | htr
      · refine ⟨false :: flags, by simp [hfl], ?_, hwf2⟩
        rw [ht2, htr]
        simp [typeEvs]
      · refine ⟨true :: flags, by simp [hfl], ?_, hwf2⟩
        rw [ht2, htr]
        simp [typeEvs]

/-- The initializer-elaboration pass visits every node in source order. -/
theorem runInitElaborate_ok (ext : Externals) :
    ∀ (cs : List Syn) (st st' : ElabState),
    runInitElaborate ext cs st = .ok st' → WFmaps st →
    st'.trace = st.trace ++ cs.map (fun c => Ev.initEv c.nid) ∧
    WFmaps st' := by
  intro cs
  induction cs with
  | nil =>
    intro st st' h hwf
    cases h
    exact ⟨by simp, hwf⟩
  | cons c cs ih =>
    intro st st' h hwf
    simp only [runInitElaborate] at h
    cases hr : elaborateDeclInit ext c st with
    | error a =>
      rw [hr] at h
      cases h
    | ok st1 =>
      simp only [hr] at h
      obtain ⟨ht1, hwf1⟩ := elaborateDeclInit_ok ext c st st1 hwf hr
      obtain ⟨ht2, hwf2⟩ := ih st1 st' h hwf1
      refine ⟨?_, hwf2⟩
      rw [ht2, ht1]
      simp

/-- startFile leaves the trace as it is and yields well-formed maps. -/
theorem startFile_ok (f : Nat) (st : ElabState) (hwf : WFmaps st) :
    (startFile f st).trace = st.trace ∧ WFmaps (startFile f st) := by
  refine ⟨rfl, ?_⟩
  intro sc hmem p hp
  simp only [startFile] at hmem ⊢
  simp only [List.mem_cons] at hmem
  rcases hmem with hhead | htail
  · subst hhead
    exact absurd hp (List.not_mem_nil p)
  · obtain ⟨hlt, hnid⟩ := hwf sc htail p hp
    constructor
    · simp [List.length_append]
      omega
    · rw [getD_append_lt _ _ _ _ hlt]
      exact hnid

/-- finishFile leaves the trace as it is. -/
theorem finishFile_ok (f : Nat) (st st' : ElabState)
    (h : finishFile f st = .ok st') : st'.trace = st.trace := by
  unfold finishFile at h
  cases hs : st.scopes with
  | nil =>
    rw [hs] at h
    cases h
  | cons sc rest =>
    rw [hs] at h
    by_cases ha : sc.anchor = f
    · simp only [ha, if_pos rfl] at h
      cases h
      rfl
    · simp only [if_neg ha] at h
      cases h

/-- C1: a successful elaborateFile run from the initial state performs the
Identify pass over every top-level child, then the TypeElaborate pass over
every top-level child, then the InitElaborate pass over every top-level
child — each pass completing file-wide, in source order, before the next
begins — and every foreign-object creation event happens inside the
TypeElaborate pass, at most one per child, in source order, so the creation
order of (mutually independent) top-level declarations matches source
order. -/
theorem elaborateFile_staged_passes (ext : Externals) (fileNid : Nat)
    (children : List Syn) (res : ElabState × Nat)
    (h : elaborateFile ext fileNid children initState = .ok res) :
    ∃ flags : List Bool, flags.length = children.length ∧
      res.1.trace =
        children.map (fun c => Ev.identifyEv c.nid) ++
        typeEvs children flags ++
        children.map (fun c => Ev.initEv c.nid) := by
  have hwf0 : WFmaps initState := by
    intro sc hmem
    exact absurd hmem (List.not_mem_nil sc)
  obtain ⟨h0tr, h0wf⟩ := startFile_ok fileNid initState hwf0
  unfold elaborateFile at h
  cases h1 : runIdentify ext children (startFile fileNid initState) with
  | error a =>
    simp only [h1, bind, Except.bind] at h
    cases h
  | ok st2 =>
    simp only [h1, bind, Except.bind] at h
    obtain ⟨h1tr, h1wf⟩ := runIdentify_ok ext children _ st2 h1 h0wf
    cases h2 : runTypeElaborate ext children st2 with
    | error a =>
      simp only [h2, bind, Except.bind] at h
      cases h
    | ok st3 =>
      simp only [h2, bind, Except.bind] at h
      obtain ⟨flags, hfl, h2tr, h2wf⟩ :=
        runTypeElaborate_ok ext children st2 st3 h2 h1wf
      cases h3 : runInitElaborate ext children st3 with
      | error a =>
        simp only [h3, bind, Except.bind] at h
        cases h
      | ok st4 =>
        simp only [h3, bind, Except.bind] at h
        obtain ⟨h3tr, h3wf⟩ := runInitElaborate_ok ext children st3 st4 h3 h2wf
        cases h4 : finishFile fileNid st4 with
        | error a =>
          simp only [h4, bind, Except.bind] at h
          cases h
        | ok st5 =>
          simp only [h4, bind, Except.bind] at h
          have h4tr := finishFile_ok fileNid st4 st5 h4
          cases h
          refine ⟨flags, hfl, ?_⟩
          show st5.trace = _
          rw [h4tr, h3tr, h2tr, h1tr, h0tr]
          show [] ++ _ ++ _ ++ _ = _
          simp

/-- First concrete top-level child: x : int. -/
def fileC1 : Syn := colonForm 1 (.atom 11 "x") (.atom 12 "int")

/-- Second concrete top-level child: y = 5. -/
def fileC2 : Syn := eqForm 2 (.atom 21 "y") (.atom 22 "5")

/-- The result of elaborating the concrete two-declaration file. -/
def fileRunRes : ElabState × Nat :=
  (elaborateFile extId 99 [fileC1, fileC2] initState).toOption.getD
    (initState, 0)

/-- C1 witness: the staged-pipeline statement applied to the concrete
two-declaration file run. -/
theorem elaborateFile_staged_passes_witness :
    (elaborateFile extId 99 [fileC1, fileC2] initState = .ok fileRunRes) ∧
    ∃ flags : List Bool, flags.length = ([fileC1, fileC2] : List Syn).length ∧
      fileRunRes.1.trace =
        ([fileC1, fileC2] : List Syn).map (fun c => Ev.identifyEv c.nid) ++
        typeEvs [fileC1, fileC2] flags ++
        ([fileC1, fileC2] : List Syn).map (fun c => Ev.initEv c.nid) :=
  ⟨rfl, elaborateFile_staged_passes extId 99 [fileC1, fileC2] fileRunRes rfl⟩
